import Mathlib

/-!
Shallow embedding of the readwise-to-podcast pipeline core
(src/state.py, src/podcast.py constants, src/main.py control flow),
together with theorems about the frozen claims.

Timestamps are modelled as natural numbers (the code uses ISO-8601
strings produced by a monotone clock; only ordering and subtraction
matter to the claims).  Python dicts are modelled as association lists
with unique keys and insertion-order semantics.  Dataclass construction
by keyword (the site of the mp3_url/r2_key mismatch) is modelled
explicitly, so that the TypeError the code would raise is visible as an
Except.error value.
-/

namespace RW

/-- state.py PendingNotebook: a notebook where audio generation was
started but not yet downloaded. -/
structure PendingNotebook where
  article_id : String
  notebook_id : String
  task_id : String
  title : String
  author : String
  summary : String
  source_url : String
  started_at : Nat
deriving DecidableEq

/-- state.py State: last_run watermark, processed_articles dict
(article_id to timestamp), pending_notebooks list. -/
structure State where
  last_run : Option Nat
  processed_articles : List (String × Nat)
  pending_notebooks : List PendingNotebook
deriving DecidableEq

/-- state.py Episode dataclass.  Note the storage field is r2_key
(relative key), there is no mp3_url field. -/
structure Episode where
  article_id : String
  title : String
  author : String
  r2_key : String
  description : String
  source_url : String
  pub_date : Nat
  file_size : Nat
deriving DecidableEq

/-- readwise.py Article. -/
structure Article where
  id : String
  title : String
  author : String
  source_url : Option String
  summary : String
  content : Option String
  updated_at : Nat
deriving DecidableEq

/-- A JSON-ish scalar value used for keyword arguments and persisted
items (strings and numbers suffice for the Episode fields). -/
inductive Val where
  | s (v : String)
  | n (v : Nat)
deriving DecidableEq

/-- Python dict membership: `k in d`. -/
def dictContains (d : List (String × α)) (k : String) : Bool :=
  d.any (fun kv => kv.1 == k)

/-- Python dict assignment `d[k] = v`: replace in place if the key is
present, otherwise append (insertion order preserved). -/
def dictInsert (d : List (String × α)) (k : String) (v : α) : List (String × α) :=
  match d with
  | [] => [(k, v)]
  | kv :: rest => if kv.1 = k then (k, v) :: rest else kv :: dictInsert rest k v

/-- state.py is_processed: membership in processed_articles. -/
def is_processed (s : State) (aid : String) : Bool :=
  dictContains s.processed_articles aid

/-- Dict-level mark_processed: insert only when absent (never
overwrite an existing timestamp). -/
def markDict (d : List (String × Nat)) (aid : String) (now : Nat) : List (String × Nat) :=
  if dictContains d aid then d else d ++ [(aid, now)]

/-- state.py mark_processed (state.py lines 83-85). -/
def mark_processed (s : State) (aid : String) (now : Nat) : State :=
  { s with processed_articles := markDict s.processed_articles aid now }

/-- Field names of the Episode dataclass, in declaration order. -/
def episodeFieldNames : List String :=
  ["article_id", "title", "author", "r2_key", "description", "source_url",
   "pub_date", "file_size"]

/-- Keyword lookup expecting a string value. -/
def kwStr (kws : List (String × Val)) (k : String) : Except String String :=
  match kws.lookup k with
  | some (Val.s v) => Except.ok v
  | some (Val.n _) => Except.error ("field type mismatch: " ++ k)
  | none => Except.error ("missing required argument: " ++ k)

/-- Keyword lookup expecting a numeric value. -/
def kwNat (kws : List (String × Val)) (k : String) : Except String Nat :=
  match kws.lookup k with
  | some (Val.n v) => Except.ok v
  | some (Val.s _) => Except.error ("field type mismatch: " ++ k)
  | none => Except.error ("missing required argument: " ++ k)

/-- Python dataclass construction `Episode(**kwargs)`: any keyword that
is not a field name raises TypeError (modelled as Except.error), then
every field must be supplied. -/
def episodeOfKwargs (kws : List (String × Val)) : Except String Episode :=
  match kws.find? (fun kv => !(episodeFieldNames.contains kv.1)) with
  | some kv => Except.error ("unexpected keyword argument: " ++ kv.1)
  | none => do
    let aid ← kwStr kws "article_id"
    let t ← kwStr kws "title"
    let au ← kwStr kws "author"
    let key ← kwStr kws "r2_key"
    let d ← kwStr kws "description"
    let src ← kwStr kws "source_url"
    let pub ← kwNat kws "pub_date"
    let size ← kwNat kws "file_size"
    Except.ok ⟨aid, t, au, key, d, src, pub, size⟩

/-- Split a character list on a separator character; like Python
str.split, the result always has one more group than separators. -/
def splitOnChar (c : Char) : List Char → List (List Char)
  | [] => [[]]
  | ch :: rest =>
    let r := splitOnChar c rest
    if ch = c then [] :: r
    else
      match r with
      | [] => [[ch]]
      | g :: gs => (ch :: g) :: gs

/-- state.py _migrate_mp3_url key extraction:
`url.split("/", 3)[-1] if "/" in url else url`.
With fewer than three separators the last group is the final split
part; with three or more, the last part of a maxsplit-3 split is the
remainder after the first three groups, separators preserved. -/
def extractKey (url : String) : String :=
  let parts := splitOnChar '/' url.data
  if parts.length ≤ 1 then url
  else if 4 ≤ parts.length then String.mk (List.intercalate ['/'] (parts.drop 3))
  else String.mk (parts.getLastD url.data)

/-- state.py _migrate_mp3_url: migrate old mp3_url (full URL) to r2_key
(relative path).  A non-string mp3_url would raise in Python
(AttributeError on .split), modelled as Except.error. -/
def migrate_mp3_url (item : List (String × Val)) : Except String (List (String × Val)) :=
  match item.lookup "mp3_url", item.lookup "r2_key" with
  | some (Val.s url), none =>
      Except.ok (item.filter (fun kv => kv.1 != "mp3_url") ++ [("r2_key", Val.s (extractKey url))])
  | some (Val.n _), none => Except.error "mp3_url is not a string"
  | _, _ => Except.ok item

/-- Construct one catalog entry: `Episode(**_migrate_mp3_url(item))`. -/
def buildEpisode (item : List (String × Val)) : Except String Episode :=
  migrate_mp3_url item >>= episodeOfKwargs

/-- state.py load_episodes dedup loop (lines 115-120): a dict keyed by
article_id, later occurrences overwriting earlier ones. -/
def load_episodes_go : List (List (String × Val)) → List (String × Episode) →
    Except String (List Episode)
  | [], seen => Except.ok (seen.map Prod.snd)
  | it :: rest, seen =>
    match buildEpisode it with
    | Except.error e => Except.error e
    | Except.ok ep => load_episodes_go rest (dictInsert seen ep.article_id ep)

/-- state.py load_episodes on already-parsed JSON items. -/
def load_episodes (data : List (List (String × Val))) : Except String (List Episode) :=
  load_episodes_go data []

/-- Shape of the processed_articles field as found on disk: legacy list
of ids, or the current id-to-timestamp mapping. -/
inductive ProcessedField where
  | legacyList (ids : List String)
  | mapping (m : List (String × Nat))
deriving DecidableEq

/-- Parsed contents of state.json. -/
structure StateFileData where
  last_run : Option Nat
  processed_articles : ProcessedField
  pending_notebooks : List PendingNotebook
deriving DecidableEq

/-- state.py load_state: default state on a missing file; legacy
list-of-ids processed_articles migrated to a mapping with every entry
assigned the current time. -/
def load_state (file : Option StateFileData) (now : Nat) : State :=
  match file with
  | none => ⟨none, [], []⟩
  | some d =>
    let articles :=
      match d.processed_articles with
      | ProcessedField.legacyList ids =>
          ids.foldl (fun m aid => dictInsert m aid now) []
      | ProcessedField.mapping m => m
    ⟨d.last_run, articles, d.pending_notebooks⟩

/-- podcast.py NOTEBOOK_MAX_AGE: clean up after 1 hour (seconds). -/
def NOTEBOOK_MAX_AGE : Nat := 60 * 60

/-- Observable actions of a run, in program order: persistence writes,
external-resource cleanup attempts, generation submissions, waits on
generation jobs, uploads and feed publication. -/
inductive Event where
  | saveState (s : State)
  | saveEpisodes (es : List Episode)
  | cleanup (notebookId : String) (ok : Bool)
  | submit (articleId notebookId taskId : String)
  | awaitDownload (notebookId taskId : String) (wait : Bool)
  | upload (key : String)
  | publishFeed
deriving DecidableEq

/-- Whether an event is a persistence write (save_state or
save_episodes). -/
def Event.isSave : Event → Bool
  | Event.saveState _ => true
  | Event.saveEpisodes _ => true
  | _ => false

/-- Result of one poll of a pending notebook (try_download_podcast with
wait=False): an exception, not ready yet, or a finished artifact whose
converted mp3 has the given byte size. -/
inductive PendOutcome where
  | pollReject
  | notReady
  | ready (size : Nat)
deriving DecidableEq

/-- Accumulated outcome of _process_pending: the event trace, the jobs
kept for next run, the in-memory processed dict and episode list, the
completed count, and — when an exception escaped the function — the
message it crashed with. -/
structure PendResult where
  trace : List Event
  stillPending : List PendingNotebook
  processed : List (String × Nat)
  episodes : List Episode
  completed : Nat
  crashed : Option String
deriving DecidableEq

/-- Keyword arguments main.py passes to Episode(...) in
_process_pending (lines 179-190): note mp3_url, not r2_key. -/
def pendingEpisodeKwargs (publicUrl : String) (p : PendingNotebook) (now size : Nat) :
    List (String × Val) :=
  let r2Key := "episodes/" ++ p.article_id ++ ".mp3"
  [("article_id", Val.s p.article_id), ("title", Val.s p.title),
   ("author", Val.s p.author),
   ("mp3_url", Val.s (publicUrl ++ "/" ++ r2Key)),
   ("description", Val.s p.summary), ("source_url", Val.s p.source_url),
   ("pub_date", Val.n now), ("file_size", Val.n size)]

/-- The loop of _process_pending (main.py lines 140-198), one pending
notebook at a time.  Stale jobs and poll errors are cleaned up and
dropped; not-ready jobs are kept; a ready artifact is uploaded and an
Episode is constructed — a construction error escapes the loop (the
try at line 171 has no except clause), after the finally-block cleanup
runs. -/
def process_pending_go (publicUrl : String) (now : Nat)
    (poll : PendingNotebook → PendOutcome) (cleanupOk : String → Bool) :
    List PendingNotebook → PendResult → PendResult
  | [], acc => acc
  | p :: rest, acc =>
    if NOTEBOOK_MAX_AGE < now - p.started_at then
      process_pending_go publicUrl now poll cleanupOk rest
        { acc with trace := acc.trace ++ [Event.cleanup p.notebook_id (cleanupOk p.notebook_id)] }
    else
      match poll p with
      | PendOutcome.pollReject =>
        process_pending_go publicUrl now poll cleanupOk rest
          { acc with trace := acc.trace ++
              [Event.awaitDownload p.notebook_id p.task_id false,
               Event.cleanup p.notebook_id (cleanupOk p.notebook_id)] }
      | PendOutcome.notReady =>
        process_pending_go publicUrl now poll cleanupOk rest
          { acc with
              trace := acc.trace ++ [Event.awaitDownload p.notebook_id p.task_id false],
              stillPending := acc.stillPending ++ [p] }
      | PendOutcome.ready size =>
        if size < 100000 then
          process_pending_go publicUrl now poll cleanupOk rest
            { acc with trace := acc.trace ++
                [Event.awaitDownload p.notebook_id p.task_id false,
                 Event.cleanup p.notebook_id (cleanupOk p.notebook_id)] }
        else
          let r2Key := "episodes/" ++ p.article_id ++ ".mp3"
          match episodeOfKwargs (pendingEpisodeKwargs publicUrl p now size) with
          | Except.error e =>
            { acc with
                trace := acc.trace ++
                  [Event.awaitDownload p.notebook_id p.task_id false,
                   Event.upload r2Key,
                   Event.cleanup p.notebook_id (cleanupOk p.notebook_id)],
                crashed := some e }
          | Except.ok ep =>
            let eps1 := acc.episodes ++ [ep]
            process_pending_go publicUrl now poll cleanupOk rest
              { acc with
                  trace := acc.trace ++
                    [Event.awaitDownload p.notebook_id p.task_id false,
                     Event.upload r2Key,
                     Event.saveEpisodes eps1,
                     Event.cleanup p.notebook_id (cleanupOk p.notebook_id)],
                  episodes := eps1,
                  processed := markDict acc.processed p.article_id now,
                  completed := acc.completed + 1 }

/-- main.py _process_pending: early return when nothing is pending,
otherwise run the loop and (when no exception escaped) persist the
state with pending_notebooks replaced by the surviving jobs
(lines 200-201). -/
def process_pending (publicUrl : String) (now : Nat)
    (poll : PendingNotebook → PendOutcome) (cleanupOk : String → Bool)
    (s : State) (eps : List Episode) : PendResult :=
  if s.pending_notebooks.isEmpty then
    ⟨[], [], s.processed_articles, eps, 0, none⟩
  else
    let r := process_pending_go publicUrl now poll cleanupOk s.pending_notebooks
      ⟨[], [], s.processed_articles, eps, 0, none⟩
    match r.crashed with
    | some _ => r
    | none =>
      { r with trace := r.trace ++ [Event.saveState ⟨s.last_run, r.processed, r.stillPending⟩] }

/-- Outcome of start_podcast for one article: an auth failure, a quota
failure, another exception, or a started generation identified by
notebook and task ids. -/
inductive StartResult where
  | authFail
  | rateLimited
  | otherFail
  | ok (notebookId taskId : String)
deriving DecidableEq

/-- Outcome of the in-run wait (try_download_podcast with wait=True):
failure kinds, still generating, or a finished artifact whose converted
mp3 has the given byte size. -/
inductive DownloadResult where
  | authFail
  | rateLimited
  | otherFail
  | stillGenerating
  | ready (size : Nat)
deriving DecidableEq

/-- External-world behaviour for one article in the driver loop. -/
structure DriveOracle where
  start : StartResult
  download : DownloadResult
  cleanupOk : Bool
deriving DecidableEq

/-- Loop state of the new-work driver (main.py lines 250-353). -/
structure DriveAcc where
  state : State
  episodes : List Episode
  processedCount : Nat
  brokeEarly : Bool
  trace : List Event
deriving DecidableEq

/-- The PendingNotebook the driver records at submission time
(main.py lines 273-282): article identity, external ids, denormalized
metadata and the start timestamp. -/
def mkPendingNotebook (a : Article) (nb task : String) (now : Nat) : PendingNotebook :=
  ⟨a.id, nb, task, a.title, a.author, a.summary, a.source_url.getD "", now⟩

/-- Append a freshly created pending job to the run state. -/
def pushPending (s : State) (p : PendingNotebook) : State :=
  { s with pending_notebooks := s.pending_notebooks ++ [p] }

/-- Remove the pending record for a notebook id
(main.py lines 301-304 and 326-329). -/
def dropPending (s : State) (nb : String) : State :=
  { s with pending_notebooks := s.pending_notebooks.filter (fun q => q.notebook_id != nb) }

/-- Keyword arguments main.py passes to Episode(...) in _run_pipeline
(lines 311-322): note mp3_url, not r2_key. -/
def driverEpisodeKwargs (publicUrl : String) (a : Article) (now size : Nat) :
    List (String × Val) :=
  let r2Key := "episodes/" ++ a.id ++ ".mp3"
  [("article_id", Val.s a.id), ("title", Val.s a.title),
   ("author", Val.s a.author),
   ("mp3_url", Val.s (publicUrl ++ "/" ++ r2Key)),
   ("description", Val.s a.summary), ("source_url", Val.s (a.source_url.getD "")),
   ("pub_date", Val.n now), ("file_size", Val.n size)]

/-- The new-work driver loop (main.py lines 254-353): skip processed
articles, stop at the limit, submit and immediately persist a pending
job, then wait; auth and rate-limit failures break out with
broke_early, other exceptions skip the article. -/
def drive (limit now : Nat) (publicUrl : String) (orc : Article → DriveOracle) :
    List Article → DriveAcc → DriveAcc
  | [], acc => acc
  | a :: rest, acc =>
    if is_processed acc.state a.id then
      drive limit now publicUrl orc rest acc
    else if limit ≤ acc.processedCount then
      { acc with brokeEarly := true }
    else
      match (orc a).start with
      | StartResult.authFail => { acc with brokeEarly := true }
      | StartResult.rateLimited => { acc with brokeEarly := true }
      | StartResult.otherFail => drive limit now publicUrl orc rest acc
      | StartResult.ok nb task =>
        let p := mkPendingNotebook a nb task now
        let s1 := pushPending acc.state p
        let acc1 : DriveAcc :=
          { acc with
              state := s1,
              trace := acc.trace ++
                [Event.submit a.id nb task, Event.saveState s1,
                 Event.awaitDownload nb task true] }
        match (orc a).download with
        | DownloadResult.authFail => { acc1 with brokeEarly := true }
        | DownloadResult.rateLimited => { acc1 with brokeEarly := true }
        | DownloadResult.otherFail => drive limit now publicUrl orc rest acc1
        | DownloadResult.stillGenerating => drive limit now publicUrl orc rest acc1
        | DownloadResult.ready size =>
          if size < 100000 then
            let s2 := dropPending s1 nb
            drive limit now publicUrl orc rest
              { acc1 with
                  state := s2,
                  trace := acc1.trace ++
                    [Event.cleanup nb (orc a).cleanupOk, Event.saveState s2] }
          else
            let r2Key := "episodes/" ++ a.id ++ ".mp3"
            match episodeOfKwargs (driverEpisodeKwargs publicUrl a now size) with
            | Except.error _ =>
              drive limit now publicUrl orc rest
                { acc1 with trace := acc1.trace ++ [Event.upload r2Key] }
            | Except.ok ep =>
              let eps1 := acc1.episodes ++ [ep]
              let s2 := mark_processed (dropPending s1 nb) a.id now
              drive limit now publicUrl orc rest
                { acc1 with
                    state := s2,
                    episodes := eps1,
                    processedCount := acc1.processedCount + 1,
                    trace := acc1.trace ++
                      [Event.upload r2Key, Event.cleanup nb (orc a).cleanupOk,
                       Event.saveEpisodes eps1, Event.saveState s2] }

/-- Result of one whole invocation of _run_pipeline. -/
structure RunOut where
  trace : List Event
  crashed : Option String
  state : State
  episodes : List Episode
  pendingCompleted : Nat
  processedCount : Nat
  brokeEarly : Bool
deriving DecidableEq

/-- Python truthiness of the optional source_url field: None and the
empty string are falsy. -/
def pythonTruthy : Option String → Bool
  | none => false
  | some s => !s.isEmpty

/-- Insert into a list kept in descending updated_at order (stable for
equal keys, matching Python's stable sort with reverse=True). -/
def insertDesc (a : Article) : List Article → List Article
  | [] => [a]
  | b :: l => if b.updated_at < a.updated_at then a :: b :: l else b :: insertDesc a l

/-- `articles.sort(key=lambda a: a.updated_at, reverse=True)`. -/
def sortByUpdatedDesc (l : List Article) : List Article :=
  l.foldl (fun acc a => insertDesc a acc) []

/-- The articles the driver loop will see (main.py lines 233-237):
filter out falsy source_url, and in --recent mode keep only the most
recently updated `limit` of them. -/
def eligible_articles (limit : Nat) (ignoreState : Bool) (fetched : List Article) :
    List Article :=
  let filtered := fetched.filter (fun a => pythonTruthy a.source_url)
  if ignoreState then (sortByUpdatedDesc filtered).take limit else filtered

/-- The remainder of _run_pipeline after _process_pending has returned
(main.py lines 230-362), parameterised by its result.  A crash in
_process_pending aborts the run; otherwise the fetched articles are
filtered on source_url, the driver loop runs, the feed is republished
when the catalog is non-empty, and last_run advances only when no
early exit happened and nothing is pending. -/
def after_pending (limit : Nat) (ignoreState : Bool) (now : Nat) (publicUrl : String)
    (fetched : List Article) (dOrc : Article → DriveOracle)
    (s0 : State) (pr : PendResult) : RunOut :=
  match pr.crashed with
  | some msg =>
    ⟨pr.trace, some msg, ⟨s0.last_run, pr.processed, s0.pending_notebooks⟩,
     pr.episodes, pr.completed, 0, false⟩
  | none =>
    let s1 : State := ⟨s0.last_run, pr.processed, pr.stillPending⟩
    let articles := eligible_articles limit ignoreState fetched
    if articles.isEmpty then
      let pubEv := if !pr.episodes.isEmpty && pr.completed != 0 then [Event.publishFeed] else []
      let s2 := if s1.pending_notebooks.isEmpty then
          ({ s1 with last_run := some now } : State) else s1
      ⟨pr.trace ++ pubEv ++ [Event.saveState s2], none, s2, pr.episodes, pr.completed, 0, false⟩
    else
      let dr := drive limit now publicUrl dOrc articles ⟨s1, pr.episodes, 0, false, pr.trace⟩
      let pubEv := if !dr.episodes.isEmpty then [Event.publishFeed] else []
      if !dr.brokeEarly && dr.state.pending_notebooks.isEmpty then
        let s3 : State := { dr.state with last_run := some now }
        ⟨dr.trace ++ pubEv ++ [Event.saveState s3], none, s3, dr.episodes,
         pr.completed, dr.processedCount, dr.brokeEarly⟩
      else
        ⟨dr.trace ++ pubEv, none, dr.state, dr.episodes,
         pr.completed, dr.processedCount, dr.brokeEarly⟩

/-- The first-run seeding branch (main.py lines 211-216): a null
watermark on a normal run sets last_run to now, saves, and returns. -/
def seed_run (s0 : State) (eps0 : List Episode) (now : Nat) : RunOut :=
  let s1 : State := { s0 with last_run := some now }
  ⟨[Event.saveState s1], none, s1, eps0, 0, 0, false⟩

/-- main.py _run_pipeline: seed on a null watermark (unless
ignore_state), else reconcile pending jobs and run the driver. -/
def run_pipeline (limit : Nat) (ignoreState : Bool) (now : Nat) (publicUrl : String)
    (fetched : List Article)
    (poll : PendingNotebook → PendOutcome) (pCleanupOk : String → Bool)
    (dOrc : Article → DriveOracle)
    (s0 : State) (eps0 : List Episode) : RunOut :=
  if s0.last_run.isNone && !ignoreState then
    seed_run s0 eps0 now
  else
    after_pending limit ignoreState now publicUrl fetched dOrc s0
      (process_pending publicUrl now poll pCleanupOk s0 eps0)

/-- Whether an event is a generation submission for the given article
id. -/
def Event.isSubmitFor (aid : String) : Event → Bool
  | Event.submit a _ _ => a == aid
  | _ => false

/-- The components of a PendResult other than the event trace: used to
state that cleanup failures never influence the outcome. -/
def PendResult.core (r : PendResult) :
    List PendingNotebook × List (String × Nat) × List Episode × Nat × Option String :=
  (r.stillPending, r.processed, r.episodes, r.completed, r.crashed)

/-- Generalisation of the later-ordered-wins rule with an explicit
starting value (used for the induction). -/
def lastOccurrenceFrom (data : List (List (String × Val))) (init : Option Episode)
    (k : String) : Option Episode :=
  data.foldl
    (fun cur it =>
      match buildEpisode it with
      | Except.ok ep => if ep.article_id = k then some ep else cur
      | Except.error _ => cur)
    init

/-- Modelled from the spec: the episode that the later-ordered-wins
deduplication rule keeps for a given article id — the last entry of the
stored list that builds an Episode with that id. -/
def lastOccurrenceSpec (data : List (List (String × Val))) (k : String) : Option Episode :=
  lastOccurrenceFrom data none k

/-! ## Helper lemmas -/

/-- The Episode keyword list built by the driver (main.py lines
311-322) always carries the unexpected keyword mp3_url, so the
dataclass construction always raises. -/
theorem driver_kwargs_reject (u : String) (a : Article) (now size : Nat) :
    episodeOfKwargs (driverEpisodeKwargs u a now size) =
      Except.error "unexpected keyword argument: mp3_url" := rfl

/-- The Episode keyword list built by the reconciler (main.py lines
179-190) always carries the unexpected keyword mp3_url, so the
dataclass construction always raises. -/
theorem pending_kwargs_reject (u : String) (p : PendingNotebook) (now size : Nat) :
    episodeOfKwargs (pendingEpisodeKwargs u p now size) =
      Except.error "unexpected keyword argument: mp3_url" := rfl

theorem dictContains_iff (d : List (String × α)) (a : String) :
    dictContains d a = true ↔ ∃ v, (a, v) ∈ d := by
  simp only [dictContains, List.any_eq_true, beq_iff_eq]
  constructor
  · rintro ⟨kv, hkv, hfst⟩
    exact ⟨kv.2, by rwa [show (a, kv.2) = kv from Prod.ext hfst.symm rfl]⟩
  · rintro ⟨v, hv⟩
    exact ⟨(a, v), hv, rfl⟩

theorem mem_dictInsert (d : List (String × α)) (k : String) (v : α)
    (kv : String × α) (h : kv ∈ dictInsert d k v) : kv ∈ d ∨ kv = (k, v) := by
  induction d with
  | nil =>
    simp only [dictInsert, List.mem_singleton] at h
    exact Or.inr h
  | cons kv0 rest ih =>
    by_cases h0 : kv0.1 = k
    · rw [show dictInsert (kv0 :: rest) k v = (k, v) :: rest from if_pos h0] at h
      rcases List.mem_cons.mp h with h | h
      · exact Or.inr h
      · exact Or.inl (List.mem_cons_of_mem _ h)
    · rw [show dictInsert (kv0 :: rest) k v = kv0 :: dictInsert rest k v from if_neg h0] at h
      rcases List.mem_cons.mp h with h | h
      · exact Or.inl (by simp [h])
      · rcases ih h with h1 | h1
        · exact Or.inl (List.mem_cons_of_mem _ h1)
        · exact Or.inr h1

theorem self_mem_dictInsert (d : List (String × α)) (k : String) (v : α) :
    (k, v) ∈ dictInsert d k v := by
  induction d with
  | nil => simp [dictInsert]
  | cons kv0 rest ih =>
    by_cases h0 : kv0.1 = k
    · rw [show dictInsert (kv0 :: rest) k v = (k, v) :: rest from if_pos h0]
      exact List.mem_cons_self _ _
    · rw [show dictInsert (kv0 :: rest) k v = kv0 :: dictInsert rest k v from if_neg h0]
      exact List.mem_cons_of_mem _ ih

theorem mem_of_mem_dictInsert_ne (d : List (String × α)) (k : String) (v : α)
    (kv : String × α) (h : kv ∈ d) (hne : kv.1 ≠ k) : kv ∈ dictInsert d k v := by
  induction d with
  | nil => simp at h
  | cons kv0 rest ih =>
    by_cases h0 : kv0.1 = k
    · rw [show dictInsert (kv0 :: rest) k v = (k, v) :: rest from if_pos h0]
      rcases List.mem_cons.mp h with h1 | h1
      · exact absurd (h1 ▸ h0) hne
      · exact List.mem_cons_of_mem _ h1
    · rw [show dictInsert (kv0 :: rest) k v = kv0 :: dictInsert rest k v from if_neg h0]
      rcases List.mem_cons.mp h with h1 | h1
      · exact h1 ▸ List.mem_cons_self _ _
      · exact List.mem_cons_of_mem _ (ih h1)

theorem dictContains_insert_iff (d : List (String × α)) (k a : String) (v : α) :
    dictContains (dictInsert d k v) a = true ↔ (dictContains d a = true ∨ a = k) := by
  constructor
  · intro h
    rcases (dictContains_iff _ _).mp h with ⟨w, hw⟩
    rcases mem_dictInsert _ _ _ _ hw with h1 | h1
    · exact Or.inl ((dictContains_iff _ _).mpr ⟨w, h1⟩)
    · exact Or.inr (congrArg Prod.fst h1)
  · rintro (h | rfl)
    · rcases (dictContains_iff _ _).mp h with ⟨w, hw⟩
      by_cases he : a = k
      · subst he
        exact (dictContains_iff _ _).mpr ⟨v, self_mem_dictInsert _ _ _⟩
      · exact (dictContains_iff _ _).mpr ⟨w, mem_of_mem_dictInsert_ne _ _ _ _ hw he⟩
    · exact (dictContains_iff _ _).mpr ⟨v, self_mem_dictInsert _ _ _⟩

theorem foldl_insert_contains (ids : List String) (m : List (String × α)) (now : α)
    (a : String) :
    dictContains (ids.foldl (fun d aid => dictInsert d aid now) m) a = true ↔
      (dictContains m a = true ∨ a ∈ ids) := by
  induction ids generalizing m with
  | nil => simp
  | cons i rest ih =>
    simp only [List.foldl_cons, List.mem_cons]
    rw [ih]
    rw [dictContains_insert_iff]
    tauto

theorem foldl_insert_mem (ids : List String) (m : List (String × α)) (now : α)
    (kv : String × α) (h : kv ∈ ids.foldl (fun d aid => dictInsert d aid now) m) :
    kv ∈ m ∨ kv.2 = now := by
  induction ids generalizing m with
  | nil => simpa using Or.inl h
  | cons i rest ih =>
    simp only [List.foldl_cons] at h
    rcases ih _ h with h1 | h1
    · rcases mem_dictInsert _ _ _ _ h1 with h2 | h2
      · exact Or.inl h2
      · right; rw [h2]
    · exact Or.inr h1

theorem lookup_dictInsert_self (d : List (String × α)) (k : String) (v : α) :
    (dictInsert d k v).lookup k = some v := by
  induction d with
  | nil => simp [dictInsert, List.lookup]
  | cons kv rest ih =>
    obtain ⟨k1, v1⟩ := kv
    by_cases h : k1 = k
    · rw [show dictInsert ((k1, v1) :: rest) k v = (k, v) :: rest from if_pos h]
      simp [List.lookup]
    · rw [show dictInsert ((k1, v1) :: rest) k v = (k1, v1) :: dictInsert rest k v
        from if_neg h]
      have hne : (k == k1) = false := beq_eq_false_iff_ne.mpr (fun he => h he.symm)
      simp [List.lookup, hne, ih]

theorem lookup_dictInsert_ne (d : List (String × α)) (k a : String) (v : α)
    (h : a ≠ k) : (dictInsert d k v).lookup a = d.lookup a := by
  induction d with
  | nil =>
    have hne : (a == k) = false := beq_eq_false_iff_ne.mpr h
    simp [dictInsert, List.lookup, hne]
  | cons kv rest ih =>
    obtain ⟨k1, v1⟩ := kv
    by_cases h0 : k1 = k
    · subst h0
      rw [show dictInsert ((k1, v1) :: rest) k1 v = (k1, v) :: rest from if_pos rfl]
      have h1 : (a == k1) = false := beq_eq_false_iff_ne.mpr h
      simp [List.lookup, h1]
    · rw [show dictInsert ((k1, v1) :: rest) k v = (k1, v1) :: dictInsert rest k v
        from if_neg h0]
      cases hk : (a == k1) with
      | true => simp [List.lookup, hk]
      | false => simp [List.lookup, hk, ih]

theorem keys_nodup_dictInsert (d : List (String × α)) (k : String) (v : α)
    (h : (d.map Prod.fst).Nodup) : ((dictInsert d k v).map Prod.fst).Nodup := by
  induction d with
  | nil => simp [dictInsert]
  | cons kv rest ih =>
    simp only [List.map_cons, List.nodup_cons] at h
    by_cases h0 : kv.1 = k
    · rw [show dictInsert (kv :: rest) k v = (k, v) :: rest from if_pos h0]
      simp only [List.map_cons, List.nodup_cons]
      exact ⟨by rw [← h0]; exact h.1, h.2⟩
    · rw [show dictInsert (kv :: rest) k v = kv :: dictInsert rest k v from if_neg h0]
      simp only [List.map_cons, List.nodup_cons]
      refine ⟨?_, ih h.2⟩
      intro hmem
      rcases List.mem_map.mp hmem with ⟨kv1, hkv1, hfst⟩
      rcases mem_dictInsert _ _ _ _ hkv1 with h1 | h1
      · exact h.1 (List.mem_map.mpr ⟨kv1, h1, hfst⟩)
      · rw [h1] at hfst
        exact h0 hfst.symm

/-- The driver loop only ever appends to the event trace. -/
theorem drive_trace_prefix (limit now : Nat) (u : String) (orc : Article → DriveOracle) :
    ∀ (l : List Article) (acc : DriveAcc),
      ∃ t, (drive limit now u orc l acc).trace = acc.trace ++ t := by
  intro l
  induction l with
  | nil => intro acc; exact ⟨[], by simp [drive]⟩
  | cons a rest ih =>
    intro acc
    simp only [drive, driver_kwargs_reject]
    split
    · exact ih acc
    · split
      · exact ⟨[], by simp⟩
      · split
        · exact ⟨[], by simp⟩
        · exact ⟨[], by simp⟩
        · exact ih acc
        · split
          · exact ⟨_, rfl⟩
          · exact ⟨_, rfl⟩
          · obtain ⟨t, ht⟩ := ih _
            exact ⟨_, by rw [ht, List.append_assoc]⟩
          · obtain ⟨t, ht⟩ := ih _
            exact ⟨_, by rw [ht, List.append_assoc]⟩
          · split
            · obtain ⟨t, ht⟩ := ih _
              exact ⟨_, by rw [ht, List.append_assoc, List.append_assoc]⟩
            · obtain ⟨t, ht⟩ := ih _
              exact ⟨_, by rw [ht, List.append_assoc, List.append_assoc]⟩

/-- The driver loop never changes the watermark, the processed mapping,
the episode catalog or the completed count: the only code path that
would (full in-run success) is unreachable because the Episode
construction raises. -/
theorem drive_frame (limit now : Nat) (u : String) (orc : Article → DriveOracle) :
    ∀ (l : List Article) (acc : DriveAcc),
      (drive limit now u orc l acc).state.last_run = acc.state.last_run ∧
      (drive limit now u orc l acc).state.processed_articles = acc.state.processed_articles ∧
      (drive limit now u orc l acc).episodes = acc.episodes ∧
      (drive limit now u orc l acc).processedCount = acc.processedCount := by
  intro l
  induction l with
  | nil => intro acc; simp [drive]
  | cons a rest ih =>
    intro acc
    simp only [drive, driver_kwargs_reject]
    split
    · exact ih acc
    · split
      · exact ⟨rfl, rfl, rfl, rfl⟩
      · split
        · exact ⟨rfl, rfl, rfl, rfl⟩
        · exact ⟨rfl, rfl, rfl, rfl⟩
        · exact ih acc
        · split
          · exact ⟨rfl, rfl, rfl, rfl⟩
          · exact ⟨rfl, rfl, rfl, rfl⟩
          · exact ih _
          · exact ih _
          · split
            · obtain ⟨h1, h2, h3, h4⟩ := ih _
              exact ⟨h1, h2, h3, h4⟩
            · exact ih _

/-- The reconciler loop only ever appends to the event trace. -/
theorem pend_go_trace_prefix (u : String) (now : Nat)
    (poll : PendingNotebook → PendOutcome) (c : String → Bool) :
    ∀ (l : List PendingNotebook) (acc : PendResult),
      ∃ t, (process_pending_go u now poll c l acc).trace = acc.trace ++ t := by
  intro l
  induction l with
  | nil => intro acc; exact ⟨[], by simp [process_pending_go]⟩
  | cons p rest ih =>
    intro acc
    simp only [process_pending_go, pending_kwargs_reject]
    split
    · obtain ⟨t, ht⟩ := ih _
      exact ⟨_, by rw [ht, List.append_assoc]⟩
    · split
      · obtain ⟨t, ht⟩ := ih _
        exact ⟨_, by rw [ht, List.append_assoc]⟩
      · obtain ⟨t, ht⟩ := ih _
        exact ⟨_, by rw [ht, List.append_assoc]⟩
      · split
        · obtain ⟨t, ht⟩ := ih _
          exact ⟨_, by rw [ht, List.append_assoc]⟩
        · exact ⟨_, rfl⟩

/-- The reconciler loop never changes the processed mapping, the
episode catalog or the completed count: the only code path that would
(a ready artifact of sufficient size) raises while constructing the
Episode. -/
theorem pend_go_frame (u : String) (now : Nat)
    (poll : PendingNotebook → PendOutcome) (c : String → Bool) :
    ∀ (l : List PendingNotebook) (acc : PendResult),
      (process_pending_go u now poll c l acc).processed = acc.processed ∧
      (process_pending_go u now poll c l acc).episodes = acc.episodes ∧
      (process_pending_go u now poll c l acc).completed = acc.completed := by
  intro l
  induction l with
  | nil => intro acc; simp [process_pending_go]
  | cons p rest ih =>
    intro acc
    simp only [process_pending_go, pending_kwargs_reject]
    split
    · exact ih _
    · split
      · exact ih _
      · exact ih _
      · split
        · exact ih _
        · exact ⟨rfl, rfl, rfl⟩

/-- Every job the reconciler keeps pending was already pending: the
loop never invents jobs. -/
theorem pend_go_still_sub (u : String) (now : Nat)
    (poll : PendingNotebook → PendOutcome) (c : String → Bool) :
    ∀ (l : List PendingNotebook) (acc : PendResult)
      (q : PendingNotebook), q ∈ (process_pending_go u now poll c l acc).stillPending →
      q ∈ acc.stillPending ∨ q ∈ l := by
  intro l
  induction l with
  | nil =>
    intro acc q hq
    exact Or.inl (by simpa [process_pending_go] using hq)
  | cons p rest ih =>
    intro acc q hq
    simp only [process_pending_go, pending_kwargs_reject] at hq
    have lift : q ∈ acc.stillPending ∨ q ∈ rest → q ∈ acc.stillPending ∨ q ∈ p :: rest :=
      fun h => h.imp id (List.mem_cons_of_mem _)
    split at hq
    · have h0 := ih _ q hq
      exact lift h0
    · split at hq
      · have h0 := ih _ q hq
        exact lift h0
      · have h0 := ih _ q hq
        rcases h0 with h | h
        · rcases List.mem_append.mp h with h1 | h1
          · exact Or.inl h1
          · exact Or.inr (List.mem_cons.mpr (Or.inl (List.mem_singleton.mp h1)))
        · exact Or.inr (List.mem_cons_of_mem _ h)
      · split at hq
        · have h0 := ih _ q hq
          exact lift h0
        · exact Or.inl hq

/-- When every pending job is stale or fails its poll, the reconciler
abandons all of them: nothing crashes, nothing stays pending, and a
cleanup of every job's notebook is attempted. -/
theorem pend_go_stale (u : String) (now : Nat)
    (poll : PendingNotebook → PendOutcome) (c : String → Bool) :
    ∀ (l : List PendingNotebook) (acc : PendResult),
      (∀ p ∈ l, NOTEBOOK_MAX_AGE < now - p.started_at ∨ poll p = PendOutcome.pollReject) →
      (process_pending_go u now poll c l acc).crashed = acc.crashed ∧
      (process_pending_go u now poll c l acc).stillPending = acc.stillPending ∧
      ∀ p ∈ l, Event.cleanup p.notebook_id (c p.notebook_id) ∈
        (process_pending_go u now poll c l acc).trace := by
  intro l
  induction l with
  | nil =>
    intro acc _
    refine ⟨by simp [process_pending_go], by simp [process_pending_go], ?_⟩
    intro p hp
    simp at hp
  | cons p rest ih =>
    intro acc hall
    have hp := hall p (List.mem_cons_self _ _)
    have hrest : ∀ q ∈ rest, NOTEBOOK_MAX_AGE < now - q.started_at ∨
        poll q = PendOutcome.pollReject :=
      fun q hq => hall q (List.mem_cons_of_mem _ hq)
    rcases hp with hstale | herr
    · have hstep : process_pending_go u now poll c (p :: rest) acc =
          process_pending_go u now poll c rest
            { acc with trace := acc.trace ++
                [Event.cleanup p.notebook_id (c p.notebook_id)] } := by
        simp only [process_pending_go]
        rw [if_pos hstale]
      rw [hstep]
      obtain ⟨h1, h2, h3⟩ := ih _ hrest
      refine ⟨h1, h2, ?_⟩
      intro q hq
      rcases List.mem_cons.mp hq with h | h
      · obtain ⟨t, ht⟩ := pend_go_trace_prefix u now poll c rest
          { acc with trace := acc.trace ++
              [Event.cleanup p.notebook_id (c p.notebook_id)] }
        rw [ht]
        subst h
        simp
      · exact h3 q h
    · by_cases hstale : NOTEBOOK_MAX_AGE < now - p.started_at
      · have hstep : process_pending_go u now poll c (p :: rest) acc =
            process_pending_go u now poll c rest
              { acc with trace := acc.trace ++
                  [Event.cleanup p.notebook_id (c p.notebook_id)] } := by
          simp only [process_pending_go]
          rw [if_pos hstale]
        rw [hstep]
        obtain ⟨h1, h2, h3⟩ := ih _ hrest
        refine ⟨h1, h2, ?_⟩
        intro q hq
        rcases List.mem_cons.mp hq with h | h
        · obtain ⟨t, ht⟩ := pend_go_trace_prefix u now poll c rest
            { acc with trace := acc.trace ++
                [Event.cleanup p.notebook_id (c p.notebook_id)] }
          rw [ht]
          subst h
          simp
        · exact h3 q h
      · have hstep : process_pending_go u now poll c (p :: rest) acc =
            process_pending_go u now poll c rest
              { acc with trace := acc.trace ++
                  [Event.awaitDownload p.notebook_id p.task_id false,
                   Event.cleanup p.notebook_id (c p.notebook_id)] } := by
          simp only [process_pending_go]
          rw [if_neg hstale, herr]
        rw [hstep]
        obtain ⟨h1, h2, h3⟩ := ih _ hrest
        refine ⟨h1, h2, ?_⟩
        intro q hq
        rcases List.mem_cons.mp hq with h | h
        · obtain ⟨t, ht⟩ := pend_go_trace_prefix u now poll c rest
            { acc with trace := acc.trace ++
                [Event.awaitDownload p.notebook_id p.task_id false,
                 Event.cleanup p.notebook_id (c p.notebook_id)] }
          rw [ht]
          subst h
          simp
        · exact h3 q h

/-- The outcome of the reconciler loop — surviving jobs, processed
mapping, episodes, completed count and whether it crashed — does not
depend on whether the best-effort cleanup calls succeed. -/
theorem pend_go_cleanup_indep (u : String) (now : Nat)
    (poll : PendingNotebook → PendOutcome) (c1 c2 : String → Bool) :
    ∀ (l : List PendingNotebook) (acc acc' : PendResult),
      acc.stillPending = acc'.stillPending → acc.processed = acc'.processed →
      acc.episodes = acc'.episodes → acc.completed = acc'.completed →
      acc.crashed = acc'.crashed →
      (process_pending_go u now poll c1 l acc).stillPending =
        (process_pending_go u now poll c2 l acc').stillPending ∧
      (process_pending_go u now poll c1 l acc).processed =
        (process_pending_go u now poll c2 l acc').processed ∧
      (process_pending_go u now poll c1 l acc).episodes =
        (process_pending_go u now poll c2 l acc').episodes ∧
      (process_pending_go u now poll c1 l acc).completed =
        (process_pending_go u now poll c2 l acc').completed ∧
      (process_pending_go u now poll c1 l acc).crashed =
        (process_pending_go u now poll c2 l acc').crashed := by
  intro l
  induction l with
  | nil =>
    intro acc acc' h1 h2 h3 h4 h5
    simpa [process_pending_go] using ⟨h1, h2, h3, h4, h5⟩
  | cons p rest ih =>
    intro acc acc' h1 h2 h3 h4 h5
    simp only [process_pending_go, pending_kwargs_reject]
    split
    · exact ih _ _ h1 h2 h3 h4 h5
    · split
      · exact ih _ _ h1 h2 h3 h4 h5
      · exact ih _ _ (by simp [h1]) h2 h3 h4 h5
      · split
        · exact ih _ _ h1 h2 h3 h4 h5
        · exact ⟨h1, h2, h3, h4, rfl⟩

/-- A job that is stale or polls with an error is never added to the
surviving pending list, whichever other jobs surround it: the only
branch that keeps a job requires it to be fresh and not-ready. -/
theorem pend_go_notadded (u : String) (now : Nat)
    (poll : PendingNotebook → PendOutcome) (c : String → Bool) (p : PendingNotebook)
    (hpse : NOTEBOOK_MAX_AGE < now - p.started_at ∨ poll p = PendOutcome.pollReject) :
    ∀ (l : List PendingNotebook) (acc : PendResult),
      p ∉ acc.stillPending → p ∉ (process_pending_go u now poll c l acc).stillPending := by
  intro l
  induction l with
  | nil =>
    intro acc hacc hmem
    exact hacc (by simpa [process_pending_go] using hmem)
  | cons q rest ih =>
    intro acc hacc
    simp only [process_pending_go, pending_kwargs_reject]
    split
    · exact ih _ hacc
    · next hnotstale =>
      split
      · exact ih _ hacc
      · next heq =>
        apply ih
        intro hmem
        rcases List.mem_append.mp hmem with h1 | h1
        · exact hacc h1
        · rcases List.mem_singleton.mp h1 with rfl
          rcases hpse with hs | he
          · exact hnotstale hs
          · rw [he] at heq
            cases heq
      · split
        · exact ih _ hacc
        · exact hacc

/-- When the reconciler loop runs to completion (no exception escaped),
every job in the list that is stale or polls with an error got a
cleanup attempt recorded in the trace. -/
theorem pend_go_cleanup_mem (u : String) (now : Nat)
    (poll : PendingNotebook → PendOutcome) (c : String → Bool) (p : PendingNotebook)
    (hpse : NOTEBOOK_MAX_AGE < now - p.started_at ∨ poll p = PendOutcome.pollReject) :
    ∀ (l : List PendingNotebook) (acc : PendResult),
      (process_pending_go u now poll c l acc).crashed = none → p ∈ l →
      Event.cleanup p.notebook_id (c p.notebook_id) ∈
        (process_pending_go u now poll c l acc).trace := by
  intro l
  induction l with
  | nil =>
    intro acc _ hpl
    cases hpl
  | cons q rest ih =>
    intro acc hnc hpl
    by_cases hstaleq : NOTEBOOK_MAX_AGE < now - q.started_at
    · have hstep : process_pending_go u now poll c (q :: rest) acc =
          process_pending_go u now poll c rest
            { acc with trace := acc.trace ++
                [Event.cleanup q.notebook_id (c q.notebook_id)] } := by
        simp only [process_pending_go]
        rw [if_pos hstaleq]
      rw [hstep] at hnc ⊢
      rcases List.mem_cons.mp hpl with rfl | hpl'
      · obtain ⟨t, ht⟩ := pend_go_trace_prefix u now poll c rest
          { acc with trace := acc.trace ++
              [Event.cleanup p.notebook_id (c p.notebook_id)] }
        rw [ht]
        exact List.mem_append.mpr (Or.inl (List.mem_append.mpr (Or.inr
          (List.mem_singleton.mpr rfl))))
      · exact ih _ hnc hpl'
    · cases hq : poll q with
      | pollReject =>
        have hstep : process_pending_go u now poll c (q :: rest) acc =
            process_pending_go u now poll c rest
              { acc with trace := acc.trace ++
                  [Event.awaitDownload q.notebook_id q.task_id false,
                   Event.cleanup q.notebook_id (c q.notebook_id)] } := by
          simp only [process_pending_go]
          rw [if_neg hstaleq, hq]
        rw [hstep] at hnc ⊢
        rcases List.mem_cons.mp hpl with rfl | hpl'
        · obtain ⟨t, ht⟩ := pend_go_trace_prefix u now poll c rest
            { acc with trace := acc.trace ++
                [Event.awaitDownload p.notebook_id p.task_id false,
                 Event.cleanup p.notebook_id (c p.notebook_id)] }
          rw [ht]
          exact List.mem_append.mpr (Or.inl (List.mem_append.mpr (Or.inr
            (List.mem_cons_of_mem _ (List.mem_singleton.mpr rfl)))))
        · exact ih _ hnc hpl'
      | notReady =>
        have hstep : process_pending_go u now poll c (q :: rest) acc =
            process_pending_go u now poll c rest
              { acc with
                  trace := acc.trace ++
                    [Event.awaitDownload q.notebook_id q.task_id false],
                  stillPending := acc.stillPending ++ [q] } := by
          simp only [process_pending_go]
          rw [if_neg hstaleq, hq]
        rw [hstep] at hnc ⊢
        rcases List.mem_cons.mp hpl with rfl | hpl'
        · rcases hpse with hs | he
          · exact absurd hs hstaleq
          · rw [he] at hq
            cases hq
        · exact ih _ hnc hpl'
      | ready size =>
        by_cases hsize : size < 100000
        · have hstep : process_pending_go u now poll c (q :: rest) acc =
              process_pending_go u now poll c rest
                { acc with trace := acc.trace ++
                    [Event.awaitDownload q.notebook_id q.task_id false,
                     Event.cleanup q.notebook_id (c q.notebook_id)] } := by
            simp only [process_pending_go]
            rw [if_neg hstaleq, hq]
            dsimp only
            rw [if_pos hsize]
          rw [hstep] at hnc ⊢
          rcases List.mem_cons.mp hpl with rfl | hpl'
          · obtain ⟨t, ht⟩ := pend_go_trace_prefix u now poll c rest
              { acc with trace := acc.trace ++
                  [Event.awaitDownload p.notebook_id p.task_id false,
                   Event.cleanup p.notebook_id (c p.notebook_id)] }
            rw [ht]
            exact List.mem_append.mpr (Or.inl (List.mem_append.mpr (Or.inr
              (List.mem_cons_of_mem _ (List.mem_singleton.mpr rfl)))))
          · exact ih _ hnc hpl'
        · have hstep : process_pending_go u now poll c (q :: rest) acc =
              { acc with
                  trace := acc.trace ++
                    [Event.awaitDownload q.notebook_id q.task_id false,
                     Event.upload ("episodes/" ++ q.article_id ++ ".mp3"),
                     Event.cleanup q.notebook_id (c q.notebook_id)],
                  crashed := some "unexpected keyword argument: mp3_url" } := by
            simp only [process_pending_go]
            rw [if_neg hstaleq, hq]
            dsimp only
            rw [if_neg hsize, pending_kwargs_reject]
          rw [hstep] at hnc
          exact Option.noConfusion hnc

theorem mem_lookup_of_nodup (d : List (String × α)) (k : String) (v : α)
    (hnd : (d.map Prod.fst).Nodup) (h : (k, v) ∈ d) : d.lookup k = some v := by
  induction d with
  | nil => simp at h
  | cons kv rest ih =>
    obtain ⟨k1, v1⟩ := kv
    simp only [List.map_cons, List.nodup_cons] at hnd
    rcases List.mem_cons.mp h with h1 | h1
    · rw [show k = k1 from congrArg Prod.fst h1, show v = v1 from congrArg Prod.snd h1]
      simp [List.lookup]
    · have hne : k ≠ k1 := by
        intro he
        exact hnd.1 (List.mem_map.mpr ⟨(k, v), h1, he⟩)
      have hb : (k == k1) = false := beq_eq_false_iff_ne.mpr hne
      simp [List.lookup, hb, ih hnd.2 h1]

/-- Neither stale cleanup, polling, uploading nor persistence events of
the reconciler are submissions: any event in the loop's trace is either
inherited or not a submit event. -/
theorem pend_go_no_submit (u : String) (now : Nat)
    (poll : PendingNotebook → PendOutcome) (c : String → Bool) (aid : String) :
    ∀ (l : List PendingNotebook) (acc : PendResult),
      ∀ e ∈ (process_pending_go u now poll c l acc).trace,
        e ∈ acc.trace ∨ e.isSubmitFor aid = false := by
  intro l
  induction l with
  | nil =>
    intro acc e he
    exact Or.inl (by simpa [process_pending_go] using he)
  | cons p rest ih =>
    intro acc e he
    simp only [process_pending_go, pending_kwargs_reject] at he
    split at he
    · rcases ih _ e he with h | h
      · rcases List.mem_append.mp h with h1 | h1
        · exact Or.inl h1
        · right
          rcases List.mem_singleton.mp h1 with rfl
          rfl
      · exact Or.inr h
    · split at he
      · rcases ih _ e he with h | h
        · rcases List.mem_append.mp h with h1 | h1
          · exact Or.inl h1
          · right
            rcases List.mem_cons.mp h1 with rfl | h2
            · rfl
            · rcases List.mem_singleton.mp h2 with rfl
              rfl
        · exact Or.inr h
      · rcases ih _ e he with h | h
        · rcases List.mem_append.mp h with h1 | h1
          · exact Or.inl h1
          · right
            rcases List.mem_singleton.mp h1 with rfl
            rfl
        · exact Or.inr h
      · split at he
        · rcases ih _ e he with h | h
          · rcases List.mem_append.mp h with h1 | h1
            · exact Or.inl h1
            · right
              rcases List.mem_cons.mp h1 with rfl | h2
              · rfl
              · rcases List.mem_singleton.mp h2 with rfl
                rfl
          · exact Or.inr h
        · rcases List.mem_append.mp he with h1 | h1
          · exact Or.inl h1
          · right
            rcases List.mem_cons.mp h1 with rfl | h2
            · rfl
            · rcases List.mem_cons.mp h2 with rfl | h3
              · rfl
              · rcases List.mem_singleton.mp h3 with rfl
                rfl

/-- If no article in the remaining list carries the given id, the
driver loop emits no submission for that id. -/
theorem drive_no_submit (limit now : Nat) (u : String) (orc : Article → DriveOracle)
    (aid : String) :
    ∀ (l : List Article) (acc : DriveAcc),
      aid ∉ l.map (fun b => b.id) →
      ∀ e ∈ (drive limit now u orc l acc).trace,
        e ∈ acc.trace ∨ e.isSubmitFor aid = false := by
  intro l
  induction l with
  | nil =>
    intro acc _ e he
    exact Or.inl (by simpa [drive] using he)
  | cons a rest ih =>
    intro acc hids e he
    have hida : a.id ≠ aid := by
      intro h
      exact hids (by rw [List.map_cons]; exact List.mem_cons.mpr (Or.inl h.symm))
    have hrest : aid ∉ rest.map (fun b => b.id) := by
      intro h
      exact hids (by rw [List.map_cons]; exact List.mem_cons_of_mem _ h)
    simp only [drive, driver_kwargs_reject] at he
    have submitFalse : ∀ nb task, (Event.submit a.id nb task).isSubmitFor aid = false := by
      intro nb task
      simp [Event.isSubmitFor, hida]
    split at he
    · exact ih _ hrest e he
    · split at he
      · exact Or.inl he
      · split at he
        · exact Or.inl he
        · exact Or.inl he
        · exact ih _ hrest e he
        · split at he
          · rcases List.mem_append.mp he with h1 | h1
            · exact Or.inl h1
            · right
              rcases List.mem_cons.mp h1 with rfl | h2
              · exact submitFalse _ _
              · rcases List.mem_cons.mp h2 with rfl | h3
                · rfl
                · rcases List.mem_singleton.mp h3 with rfl
                  rfl
          · rcases List.mem_append.mp he with h1 | h1
            · exact Or.inl h1
            · right
              rcases List.mem_cons.mp h1 with rfl | h2
              · exact submitFalse _ _
              · rcases List.mem_cons.mp h2 with rfl | h3
                · rfl
                · rcases List.mem_singleton.mp h3 with rfl
                  rfl
          · rcases ih _ hrest e he with h | h
            · rcases List.mem_append.mp h with h1 | h1
              · exact Or.inl h1
              · right
                rcases List.mem_cons.mp h1 with rfl | h2
                · exact submitFalse _ _
                · rcases List.mem_cons.mp h2 with rfl | h3
                  · rfl
                  · rcases List.mem_singleton.mp h3 with rfl
                    rfl
            · exact Or.inr h
          · rcases ih _ hrest e he with h | h
            · rcases List.mem_append.mp h with h1 | h1
              · exact Or.inl h1
              · right
                rcases List.mem_cons.mp h1 with rfl | h2
                · exact submitFalse _ _
                · rcases List.mem_cons.mp h2 with rfl | h3
                  · rfl
                  · rcases List.mem_singleton.mp h3 with rfl
                    rfl
            · exact Or.inr h
          · split at he
            · rcases ih _ hrest e he with h | h
              · rcases List.mem_append.mp h with h1 | h1
                · rcases List.mem_append.mp h1 with h2 | h2
                  · exact Or.inl h2
                  · right
                    rcases List.mem_cons.mp h2 with rfl | h3
                    · exact submitFalse _ _
                    · rcases List.mem_cons.mp h3 with rfl | h4
                      · rfl
                      · rcases List.mem_singleton.mp h4 with rfl
                        rfl
                · right
                  rcases List.mem_cons.mp h1 with rfl | h2
                  · rfl
                  · rcases List.mem_singleton.mp h2 with rfl
                    rfl
              · exact Or.inr h
            · rcases ih _ hrest e he with h | h
              · rcases List.mem_append.mp h with h1 | h1
                · rcases List.mem_append.mp h1 with h2 | h2
                  · exact Or.inl h2
                  · right
                    rcases List.mem_cons.mp h2 with rfl | h3
                    · exact submitFalse _ _
                    · rcases List.mem_cons.mp h3 with rfl | h4
                      · rfl
                      · rcases List.mem_singleton.mp h4 with rfl
                        rfl
                · right
                  rcases List.mem_singleton.mp h1 with rfl
                  rfl
              · exact Or.inr h

/-- If no article in the remaining list carries the given id and no
current pending job does either, the driver loop never produces a
pending job with that id. -/
theorem drive_pending_aid (limit now : Nat) (u : String) (orc : Article → DriveOracle)
    (aid : String) :
    ∀ (l : List Article) (acc : DriveAcc),
      aid ∉ l.map (fun b => b.id) →
      (∀ q ∈ acc.state.pending_notebooks, q.article_id ≠ aid) →
      ∀ q ∈ (drive limit now u orc l acc).state.pending_notebooks, q.article_id ≠ aid := by
  intro l
  induction l with
  | nil =>
    intro acc _ hacc q hq
    exact hacc q (by simpa [drive] using hq)
  | cons a rest ih =>
    intro acc hids hacc q hq
    have hida : a.id ≠ aid := by
      intro h
      exact hids (by rw [List.map_cons]; exact List.mem_cons.mpr (Or.inl h.symm))
    have hrest : aid ∉ rest.map (fun b => b.id) := by
      intro h
      exact hids (by rw [List.map_cons]; exact List.mem_cons_of_mem _ h)
    have hpush : ∀ (nb task : String) (q1 : PendingNotebook),
        q1 ∈ (pushPending acc.state (mkPendingNotebook a nb task now)).pending_notebooks →
        q1.article_id ≠ aid := by
      intro nb task q1 hq1
      rcases List.mem_append.mp hq1 with h1 | h1
      · exact hacc q1 h1
      · rcases List.mem_singleton.mp h1 with rfl
        exact hida
    have hdrop : ∀ (s : State) (nb : String),
        (∀ q1 ∈ s.pending_notebooks, q1.article_id ≠ aid) →
        ∀ q1 ∈ (dropPending s nb).pending_notebooks, q1.article_id ≠ aid := by
      intro s nb hs q1 hq1
      exact hs q1 (List.mem_of_mem_filter hq1)
    simp only [drive, driver_kwargs_reject] at hq
    split at hq
    · exact ih _ hrest hacc q hq
    · split at hq
      · exact hacc q hq
      · split at hq
        · exact hacc q hq
        · exact hacc q hq
        · exact ih _ hrest hacc q hq
        · split at hq
          · exact hpush _ _ q hq
          · exact hpush _ _ q hq
          · exact ih _ hrest (hpush _ _) q hq
          · exact ih _ hrest (hpush _ _) q hq
          · split at hq
            · exact ih _ hrest (hdrop _ _ (hpush _ _)) q hq
            · exact ih _ hrest (hpush _ _) q hq

theorem mem_insertDesc (a q : Article) :
    ∀ (l : List Article), q ∈ insertDesc a l → q = a ∨ q ∈ l := by
  intro l
  induction l with
  | nil => intro h; exact Or.inl (List.mem_singleton.mp h)
  | cons b rest ih =>
    intro h
    simp only [insertDesc] at h
    split at h
    · rcases List.mem_cons.mp h with rfl | h1
      · exact Or.inl rfl
      · exact Or.inr h1
    · rcases List.mem_cons.mp h with rfl | h1
      · exact Or.inr (List.mem_cons_self _ _)
      · rcases ih h1 with h2 | h2
        · exact Or.inl h2
        · exact Or.inr (List.mem_cons_of_mem _ h2)

theorem mem_sortByUpdatedDesc (l : List Article) (q : Article)
    (h : q ∈ sortByUpdatedDesc l) : q ∈ l := by
  suffices hgen : ∀ (l1 : List Article) (acc : List Article),
      q ∈ l1.foldl (fun acc a => insertDesc a acc) acc → q ∈ acc ∨ q ∈ l1 by
    rcases hgen l [] h with h1 | h1
    · simp at h1
    · exact h1
  intro l1
  induction l1 with
  | nil => intro acc h1; exact Or.inl (by simpa using h1)
  | cons a rest ih =>
    intro acc h1
    rcases ih _ h1 with h2 | h2
    · rcases mem_insertDesc a q acc h2 with h3 | h3
      · exact Or.inr (h3 ▸ List.mem_cons_self _ _)
      · exact Or.inl h3
    · exact Or.inr (List.mem_cons_of_mem _ h2)

/-- The reconciler never touches the processed mapping or the episode
catalog (the code path that would raises first), and keeps only jobs
that were already pending. -/
theorem process_pending_frame (u : String) (now : Nat)
    (poll : PendingNotebook → PendOutcome) (c : String → Bool)
    (s : State) (eps : List Episode) :
    (process_pending u now poll c s eps).processed = s.processed_articles ∧
    (process_pending u now poll c s eps).episodes = eps ∧
    ∀ q ∈ (process_pending u now poll c s eps).stillPending,
      q ∈ s.pending_notebooks := by
  simp only [process_pending]
  split
  · refine ⟨rfl, rfl, ?_⟩
    intro q hq
    simp at hq
  · obtain ⟨h1, h2, h3⟩ := pend_go_frame u now poll c s.pending_notebooks
      ⟨[], [], s.processed_articles, eps, 0, none⟩
    have h4 := pend_go_still_sub u now poll c s.pending_notebooks
      ⟨[], [], s.processed_articles, eps, 0, none⟩
    split
    · refine ⟨h1, h2, ?_⟩
      intro q hq
      rcases h4 q hq with h5 | h5
      · simp at h5
      · exact h5
    · refine ⟨h1, h2, ?_⟩
      intro q hq
      rcases h4 q hq with h5 | h5
      · simp at h5
      · exact h5

/-- The trace of the reconciler contains no submission events. -/
theorem process_pending_no_submit (u : String) (now : Nat)
    (poll : PendingNotebook → PendOutcome) (c : String → Bool)
    (s : State) (eps : List Episode) (aid : String) :
    ∀ e ∈ (process_pending u now poll c s eps).trace, e.isSubmitFor aid = false := by
  simp only [process_pending]
  split
  · intro e he
    simp at he
  · have h1 := pend_go_no_submit u now poll c aid s.pending_notebooks
      ⟨[], [], s.processed_articles, eps, 0, none⟩
    split
    · intro e he
      rcases h1 e he with h | h
      · simp at h
      · exact h
    · intro e he
      rcases List.mem_append.mp he with h2 | h2
      · rcases h1 e h2 with h | h
        · simp at h
        · exact h
      · rcases List.mem_singleton.mp h2 with rfl
        rfl

/-- Where the final watermark can come from: either it is exactly the
initial one, or it was set to now by a branch that requires no early
exit and (outside first-run seeding) an empty pending list. -/
theorem run_pipeline_watermark_cases (limit : Nat) (ignoreState : Bool) (now : Nat)
    (u : String) (fetched : List Article)
    (poll : PendingNotebook → PendOutcome) (c : String → Bool)
    (dOrc : Article → DriveOracle) (s0 : State) (eps0 : List Episode) :
    (run_pipeline limit ignoreState now u fetched poll c dOrc s0 eps0).state.last_run =
        s0.last_run ∨
      ((run_pipeline limit ignoreState now u fetched poll c dOrc s0 eps0).state.last_run =
          some now ∧
       (run_pipeline limit ignoreState now u fetched poll c dOrc s0 eps0).brokeEarly = false ∧
       ((run_pipeline limit ignoreState now u fetched poll c dOrc s0 eps0).state.pending_notebooks
            = [] ∨
        s0.last_run = none)) := by
  by_cases hseed : (s0.last_run.isNone && !ignoreState) = true
  · rw [run_pipeline, if_pos hseed]
    right
    refine ⟨rfl, rfl, Or.inr ?_⟩
    have h1 : s0.last_run.isNone = true := (Bool.and_eq_true_iff.mp hseed).1
    exact Option.isNone_iff_eq_none.mp h1
  · rw [run_pipeline, if_neg hseed]
    simp only [after_pending]
    split
    · left; rfl
    · split
      · dsimp only
        split
        · next hcond =>
          right
          exact ⟨rfl, rfl, Or.inl (List.isEmpty_iff.mp hcond)⟩
        · left; rfl
      · split
        · next hcond =>
          right
          rcases Bool.and_eq_true_iff.mp hcond with ⟨h1, h2⟩
          refine ⟨rfl, ?_, Or.inl ?_⟩
          · simpa using h1
          · exact List.isEmpty_iff.mp h2
        · left
          exact (drive_frame _ _ _ _ _ _).1

theorem load_episodes_go_spec :
    ∀ (data : List (List (String × Val))) (seen : List (String × Episode))
      (eps : List Episode),
      load_episodes_go data seen = Except.ok eps →
      (∀ kv ∈ seen, kv.2.article_id = kv.1) →
      (seen.map Prod.fst).Nodup →
      (eps.map (fun e => e.article_id)).Nodup ∧
      ∀ e ∈ eps,
        lastOccurrenceFrom data (seen.lookup e.article_id) e.article_id = some e := by
  intro data
  induction data with
  | nil =>
    intro seen eps hok hinv hnd
    simp only [load_episodes_go, Except.ok.injEq] at hok
    subst hok
    constructor
    · have hmm : (seen.map Prod.snd).map (fun e => e.article_id) = seen.map Prod.fst := by
        rw [List.map_map]
        exact List.map_congr_left (fun kv hkv => hinv kv hkv)
      rw [hmm]
      exact hnd
    · intro e he
      rcases List.mem_map.mp he with ⟨⟨k1, v1⟩, hkv, hsnd⟩
      have h1 : e.article_id = k1 := by rw [← hsnd]; exact hinv ⟨k1, v1⟩ hkv
      simp only [lastOccurrenceFrom, List.foldl_nil]
      rw [h1]
      have hkv2 : (k1, e) ∈ seen := by rw [← hsnd]; exact hkv
      exact mem_lookup_of_nodup _ _ _ hnd hkv2
  | cons it rest ih =>
    intro seen eps hok hinv hnd
    simp only [load_episodes_go] at hok
    cases hb : buildEpisode it with
    | error e => simp [hb] at hok
    | ok ep =>
      simp only [hb] at hok
      have hinv' : ∀ kv ∈ dictInsert seen ep.article_id ep, kv.2.article_id = kv.1 := by
        intro kv hkv
        rcases mem_dictInsert _ _ _ _ hkv with h | h
        · exact hinv kv h
        · rw [h]
      have hnd' := keys_nodup_dictInsert seen ep.article_id ep hnd
      obtain ⟨hh1, hh2⟩ := ih _ _ hok hinv' hnd'
      refine ⟨hh1, ?_⟩
      intro e he
      have h2 := hh2 e he
      have hstep : lastOccurrenceFrom (it :: rest) (seen.lookup e.article_id) e.article_id =
          lastOccurrenceFrom rest
            ((dictInsert seen ep.article_id ep).lookup e.article_id) e.article_id := by
        simp only [lastOccurrenceFrom, List.foldl_cons, hb]
        by_cases hk : ep.article_id = e.article_id
        · rw [if_pos hk, hk, lookup_dictInsert_self]
        · rw [if_neg hk, lookup_dictInsert_ne _ _ _ _ (fun he2 => hk he2.symm)]
      rw [hstep]
      exact h2

/-! ## Claims -/

/-- C3: mark_processed is idempotent — marking an id that is already in
processed_articles leaves the state unchanged (no error, no timestamp
overwrite) — and the driver skips an already-processed article
entirely: the loop continues with the remaining articles from an
unchanged accumulator, so no generation job is submitted and no
Episode is created for it. -/
theorem claim_C3 :
    (∀ (s : State) (aid : String) (now : Nat),
      is_processed s aid = true → mark_processed s aid now = s) ∧
    (∀ (limit now : Nat) (u : String) (orc : Article → DriveOracle)
      (a : Article) (rest : List Article) (acc : DriveAcc),
      is_processed acc.state a.id = true →
      drive limit now u orc (a :: rest) acc = drive limit now u orc rest acc) := by
  constructor
  · intro s aid now h
    have h2 : dictContains s.processed_articles aid = true := h
    simp only [mark_processed, markDict, if_pos h2]
  · intro limit now u orc a rest acc h
    rw [drive, if_pos h]

/-- Witness for C3 at a concrete state and article. -/
theorem claim_C3_witness :
    (is_processed ⟨some 5, [("a1", 3)], []⟩ "a1" = true ∧
      mark_processed ⟨some 5, [("a1", 3)], []⟩ "a1" 9 = ⟨some 5, [("a1", 3)], []⟩) ∧
    (is_processed ⟨some 5, [("a1", 3)], []⟩ "a1" = true ∧
      drive 5 9 "u" (fun _ => ⟨StartResult.ok "nb" "t", DownloadResult.stillGenerating, true⟩)
          [⟨"a1", "T", "A", some "https://x/1", "S", none, 1⟩]
          ⟨⟨some 5, [("a1", 3)], []⟩, [], 0, false, []⟩ =
        drive 5 9 "u" (fun _ => ⟨StartResult.ok "nb" "t", DownloadResult.stillGenerating, true⟩)
          [] ⟨⟨some 5, [("a1", 3)], []⟩, [], 0, false, []⟩) :=
  ⟨⟨by decide, claim_C3.1 ⟨some 5, [("a1", 3)], []⟩ "a1" 9 (by decide)⟩,
   ⟨by decide,
    claim_C3.2 5 9 "u" (fun _ => ⟨StartResult.ok "nb" "t", DownloadResult.stillGenerating, true⟩)
      ⟨"a1", "T", "A", some "https://x/1", "S", none, 1⟩ []
      ⟨⟨some 5, [("a1", 3)], []⟩, [], 0, false, []⟩ (by decide)⟩⟩

/-- C4: false on the code.  Both Episode construction sites in main.py
(driver, lines 311-322, and reconciler, lines 179-190) pass the keyword
mp3_url with a full URL, but the Episode dataclass in state.py has the
field r2_key and no mp3_url, so every such construction raises
TypeError instead of producing an Episode record with a relative
storage key. -/
theorem claim_C4 (u : String) (a : Article) (p : PendingNotebook) (now size : Nat) :
    episodeOfKwargs (driverEpisodeKwargs u a now size) =
      Except.error "unexpected keyword argument: mp3_url" ∧
    episodeOfKwargs (pendingEpisodeKwargs u p now size) =
      Except.error "unexpected keyword argument: mp3_url" ∧
    ("mp3_url" ∈ episodeFieldNames) = False :=
  ⟨driver_kwargs_reject u a now size, pending_kwargs_reject u p now size, by
    simp only [eq_iff_iff, iff_false]
    decide⟩

/-- C8: load_state returns the default state on a missing file, and a
legacy list-of-ids processed_articles is migrated losslessly: the
resulting mapping has exactly the legacy ids as keys, every migrated
entry carries the current time, and last_run and pending_notebooks are
taken over unchanged. -/
theorem claim_C8 :
    (∀ now : Nat, load_state none now = ⟨none, [], []⟩) ∧
    ∀ (lr : Option Nat) (ids : List String) (pend : List PendingNotebook) (now : Nat),
      (load_state (some ⟨lr, ProcessedField.legacyList ids, pend⟩) now).last_run = lr ∧
      (load_state (some ⟨lr, ProcessedField.legacyList ids, pend⟩) now).pending_notebooks
          = pend ∧
      (∀ a : String,
        dictContains
          (load_state (some ⟨lr, ProcessedField.legacyList ids, pend⟩) now).processed_articles
          a = true ↔ a ∈ ids) ∧
      (∀ kv ∈ (load_state
          (some ⟨lr, ProcessedField.legacyList ids, pend⟩) now).processed_articles,
        kv.2 = now) := by
  refine ⟨fun now => rfl, ?_⟩
  intro lr ids pend now
  refine ⟨rfl, rfl, ?_, ?_⟩
  · intro a
    have h := foldl_insert_contains ids ([] : List (String × Nat)) now a
    have hempty : dictContains ([] : List (String × Nat)) a = false := rfl
    constructor
    · intro h1
      rcases h.mp h1 with h2 | h2
      · rw [hempty] at h2; cases h2
      · exact h2
    · intro h1
      exact h.mpr (Or.inr h1)
  · intro kv hkv
    rcases foldl_insert_mem ids ([] : List (String × Nat)) now kv hkv with h | h
    · simp at h
    · exact h

/-- Witness for C8 at a concrete legacy file with a duplicated id. -/
theorem claim_C8_witness :
    load_state none 3 = ⟨none, [], []⟩ ∧
    (load_state (some ⟨some 5, ProcessedField.legacyList ["x", "y", "x"], []⟩) 9).last_run
        = some 5 ∧
    (dictContains (load_state
        (some ⟨some 5, ProcessedField.legacyList ["x", "y", "x"], []⟩) 9).processed_articles
        "y" = true ↔ "y" ∈ ["x", "y", "x"]) ∧
    (("y", 9) ∈ (load_state
        (some ⟨some 5, ProcessedField.legacyList ["x", "y", "x"], []⟩) 9).processed_articles →
      (("y", 9) : String × Nat).2 = 9) :=
  ⟨claim_C8.1 3,
   (claim_C8.2 (some 5) ["x", "y", "x"] [] 9).1,
   (claim_C8.2 (some 5) ["x", "y", "x"] [] 9).2.2.1 "y",
   fun h => (claim_C8.2 (some 5) ["x", "y", "x"] [] 9).2.2.2 ("y", 9) h⟩

/-- C9: a successfully loaded episode list has at most one Episode per
article_id, and each returned Episode is the one built from the
later-ordered (last) stored entry with that article_id; earlier
duplicates are discarded. -/
theorem claim_C9 (data : List (List (String × Val))) (eps : List Episode)
    (h : load_episodes data = Except.ok eps) :
    (eps.map (fun e => e.article_id)).Nodup ∧
    ∀ e ∈ eps, lastOccurrenceSpec data e.article_id = some e := by
  have hs := load_episodes_go_spec data [] eps h (by simp) (by simp)
  refine ⟨hs.1, ?_⟩
  intro e he
  have h2 := hs.2 e he
  simpa [lastOccurrenceSpec, List.lookup] using h2

/-- Witness for C9: two stored entries share article_id a (the second
in the legacy mp3_url shape); the loaded list keeps exactly the later
one, with the URL migrated to a relative key. -/
theorem claim_C9_witness :
    load_episodes
        [[("article_id", Val.s "a"), ("title", Val.s "T1"), ("author", Val.s "A1"),
          ("r2_key", Val.s "episodes/a.mp3"), ("description", Val.s "D1"),
          ("source_url", Val.s "https://x/1"), ("pub_date", Val.n 1), ("file_size", Val.n 100)],
         [("article_id", Val.s "a"), ("title", Val.s "T2"), ("author", Val.s "A2"),
          ("mp3_url", Val.s "https://pub-x.r2.dev/episodes/a.mp3"), ("description", Val.s "D2"),
          ("source_url", Val.s "https://x/2"), ("pub_date", Val.n 2), ("file_size", Val.n 200)]] =
      Except.ok [⟨"a", "T2", "A2", "episodes/a.mp3", "D2", "https://x/2", 2, 200⟩] ∧
    (([⟨"a", "T2", "A2", "episodes/a.mp3", "D2", "https://x/2", 2, 200⟩] :
        List Episode).map (fun e => e.article_id)).Nodup ∧
    ∀ e ∈ ([⟨"a", "T2", "A2", "episodes/a.mp3", "D2", "https://x/2", 2, 200⟩] : List Episode),
      lastOccurrenceSpec
        [[("article_id", Val.s "a"), ("title", Val.s "T1"), ("author", Val.s "A1"),
          ("r2_key", Val.s "episodes/a.mp3"), ("description", Val.s "D1"),
          ("source_url", Val.s "https://x/1"), ("pub_date", Val.n 1), ("file_size", Val.n 100)],
         [("article_id", Val.s "a"), ("title", Val.s "T2"), ("author", Val.s "A2"),
          ("mp3_url", Val.s "https://pub-x.r2.dev/episodes/a.mp3"), ("description", Val.s "D2"),
          ("source_url", Val.s "https://x/2"), ("pub_date", Val.n 2), ("file_size", Val.n 200)]]
        e.article_id = some e :=
  ⟨rfl, claim_C9 _ _ rfl⟩

/-- C2: whenever the driver submits a generation request (start
succeeds for a not-yet-processed article under the limit), the freshly
built PendingNotebook — carrying the article identity, notebook id,
task id, denormalized metadata and start timestamp — is appended to
pending_notebooks and that state is persisted (saveState event)
strictly before the long-running wait (awaitDownload with wait=true)
on that job. -/
theorem claim_C2 (limit now : Nat) (u : String) (orc : Article → DriveOracle)
    (a : Article) (rest : List Article) (acc : DriveAcc) (nb task : String)
    (hstart : (orc a).start = StartResult.ok nb task)
    (hproc : is_processed acc.state a.id = false)
    (hlim : acc.processedCount < limit) :
    mkPendingNotebook a nb task now ∈
      (pushPending acc.state (mkPendingNotebook a nb task now)).pending_notebooks ∧
    ∃ tail, (drive limit now u orc (a :: rest) acc).trace =
      acc.trace ++
        [Event.submit a.id nb task,
         Event.saveState (pushPending acc.state (mkPendingNotebook a nb task now)),
         Event.awaitDownload nb task true] ++ tail := by
  have h1 : ¬ (is_processed acc.state a.id = true) := by simp [hproc]
  have h2 : ¬ (limit ≤ acc.processedCount) := Nat.not_le.mpr hlim
  constructor
  · exact List.mem_append.mpr (Or.inr (List.mem_singleton.mpr rfl))
  · rw [drive, if_neg h1, if_neg h2, hstart]
    dsimp only
    cases hd : (orc a).download with
    | authFail => exact ⟨[], by simp⟩
    | rateLimited => exact ⟨[], by simp⟩
    | otherFail =>
      obtain ⟨t, ht⟩ := drive_trace_prefix limit now u orc rest _
      exact ⟨t, ht⟩
    | stillGenerating =>
      obtain ⟨t, ht⟩ := drive_trace_prefix limit now u orc rest _
      exact ⟨t, ht⟩
    | ready size =>
      dsimp only
      by_cases hsize : size < 100000
      · rw [if_pos hsize]
        obtain ⟨t, ht⟩ := drive_trace_prefix limit now u orc rest _
        exact ⟨_, by rw [ht, List.append_assoc]⟩
      · rw [if_neg hsize, driver_kwargs_reject]
        obtain ⟨t, ht⟩ := drive_trace_prefix limit now u orc rest _
        exact ⟨_, by rw [ht, List.append_assoc]⟩

/-- Witness for C2 at a concrete article whose generation stays
pending. -/
theorem claim_C2_witness :
    ((fun _ : Article => (⟨StartResult.ok "nb1" "t1", DownloadResult.stillGenerating, true⟩ :
          DriveOracle)) ⟨"a1", "T", "A", some "https://x/1", "S", none, 1⟩).start =
        StartResult.ok "nb1" "t1" ∧
    is_processed (⟨some 5, [], []⟩ : State) "a1" = false ∧
    (0 : Nat) < 5 ∧
    (mkPendingNotebook ⟨"a1", "T", "A", some "https://x/1", "S", none, 1⟩ "nb1" "t1" 9 ∈
      (pushPending ⟨some 5, [], []⟩
        (mkPendingNotebook ⟨"a1", "T", "A", some "https://x/1", "S", none, 1⟩ "nb1" "t1" 9)).pending_notebooks ∧
     ∃ tail,
      (drive 5 9 "u"
          (fun _ => ⟨StartResult.ok "nb1" "t1", DownloadResult.stillGenerating, true⟩)
          [⟨"a1", "T", "A", some "https://x/1", "S", none, 1⟩]
          ⟨⟨some 5, [], []⟩, [], 0, false, []⟩).trace =
        [] ++
          [Event.submit "a1" "nb1" "t1",
           Event.saveState (pushPending ⟨some 5, [], []⟩
             (mkPendingNotebook ⟨"a1", "T", "A", some "https://x/1", "S", none, 1⟩ "nb1" "t1" 9)),
           Event.awaitDownload "nb1" "t1" true] ++ tail) :=
  ⟨rfl, by decide, by decide,
   claim_C2 5 9 "u" (fun _ => ⟨StartResult.ok "nb1" "t1", DownloadResult.stillGenerating, true⟩)
     ⟨"a1", "T", "A", some "https://x/1", "S", none, 1⟩ []
     ⟨⟨some 5, [], []⟩, [], 0, false, []⟩ "nb1" "t1" rfl (by decide) (by decide)⟩

/-- C5: false on the code at a concrete input.  With two healthy
pending jobs whose audio is ready and large enough, the reconciler
crashes while constructing the Episode for the first job (TypeError
from the mp3_url keyword): its whole trace is the poll, the upload and
the finally-block cleanup of job one, with no save_state or
save_episodes event at all, no episode appended and nothing marked
processed — so neither job is durably resolved before the next one,
and the persisted state still holds both jobs. -/
theorem claim_C5 :
    (process_pending "https://pub-x.r2.dev" 100 (fun _ => PendOutcome.ready 200000)
        (fun _ => true)
        ⟨some 50, [], [⟨"a1", "nb1", "t1", "T1", "Au1", "S1", "https://x/1", 0⟩,
                       ⟨"a2", "nb2", "t2", "T2", "Au2", "S2", "https://x/2", 0⟩]⟩
        []).crashed = some "unexpected keyword argument: mp3_url" ∧
    (process_pending "https://pub-x.r2.dev" 100 (fun _ => PendOutcome.ready 200000)
        (fun _ => true)
        ⟨some 50, [], [⟨"a1", "nb1", "t1", "T1", "Au1", "S1", "https://x/1", 0⟩,
                       ⟨"a2", "nb2", "t2", "T2", "Au2", "S2", "https://x/2", 0⟩]⟩
        []).trace =
      [Event.awaitDownload "nb1" "t1" false, Event.upload "episodes/a1.mp3",
       Event.cleanup "nb1" true] ∧
    (process_pending "https://pub-x.r2.dev" 100 (fun _ => PendOutcome.ready 200000)
        (fun _ => true)
        ⟨some 50, [], [⟨"a1", "nb1", "t1", "T1", "Au1", "S1", "https://x/1", 0⟩,
                       ⟨"a2", "nb2", "t2", "T2", "Au2", "S2", "https://x/2", 0⟩]⟩
        []).trace.filter Event.isSave = [] ∧
    (process_pending "https://pub-x.r2.dev" 100 (fun _ => PendOutcome.ready 200000)
        (fun _ => true)
        ⟨some 50, [], [⟨"a1", "nb1", "t1", "T1", "Au1", "S1", "https://x/1", 0⟩,
                       ⟨"a2", "nb2", "t2", "T2", "Au2", "S2", "https://x/2", 0⟩]⟩
        []).episodes = [] ∧
    (process_pending "https://pub-x.r2.dev" 100 (fun _ => PendOutcome.ready 200000)
        (fun _ => true)
        ⟨some 50, [], [⟨"a1", "nb1", "t1", "T1", "Au1", "S1", "https://x/1", 0⟩,
                       ⟨"a2", "nb2", "t2", "T2", "Au2", "S2", "https://x/2", 0⟩]⟩
        []).processed = [] := by
  refine ⟨rfl, rfl, rfl, rfl, rfl⟩

/-- C6 counterexample: pending_jobs empty, fetch returns 2 articles,
limit = 1, both generations stay pending in-run — the run ends with 2
PendingJobs, not exactly 1: the limit counts only episodes fully
completed within the run, so a still-generating first article does not
stop the second from being submitted. -/
theorem claim_C6_counterexample :
    (run_pipeline 1 false 100 "u"
        [⟨"a1", "T1", "Au1", some "https://x/1", "S1", none, 10⟩,
         ⟨"a2", "T2", "Au2", some "https://x/2", "S2", none, 20⟩]
        (fun _ => PendOutcome.notReady) (fun _ => true)
        (fun a => if a.id == "a1" then ⟨StartResult.ok "nb1" "t1", DownloadResult.stillGenerating, true⟩
                  else ⟨StartResult.ok "nb2" "t2", DownloadResult.stillGenerating, true⟩)
        ⟨some 50, [], []⟩ []).state.pending_notebooks.length = 2 ∧
    (run_pipeline 1 false 100 "u"
        [⟨"a1", "T1", "Au1", some "https://x/1", "S1", none, 10⟩,
         ⟨"a2", "T2", "Au2", some "https://x/2", "S2", none, 20⟩]
        (fun _ => PendOutcome.notReady) (fun _ => true)
        (fun a => if a.id == "a1" then ⟨StartResult.ok "nb1" "t1", DownloadResult.stillGenerating, true⟩
                  else ⟨StartResult.ok "nb2" "t2", DownloadResult.stillGenerating, true⟩)
        ⟨some 50, [], []⟩ []).state.last_run = some 50 ∧
    (run_pipeline 1 false 100 "u"
        [⟨"a1", "T1", "Au1", some "https://x/1", "S1", none, 10⟩,
         ⟨"a2", "T2", "Au2", some "https://x/2", "S2", none, 20⟩]
        (fun _ => PendOutcome.notReady) (fun _ => true)
        (fun a => if a.id == "a1" then ⟨StartResult.ok "nb1" "t1", DownloadResult.stillGenerating, true⟩
                  else ⟨StartResult.ok "nb2" "t2", DownloadResult.stillGenerating, true⟩)
        ⟨some 50, [], []⟩ []).brokeEarly = false := by
  refine ⟨rfl, rfl, rfl⟩

/-- C6 (amended): the per-run limit bounds episodes fully completed
within the run, not submissions — once that count reaches the limit
the driver stops with broke_early (no failure, remaining articles left
for the next run), and a run that broke early never advances the
watermark; but articles whose generation jobs stay pending do not
count toward the limit, so a run may create more PendingJobs than the
limit. -/
theorem claim_C6 :
    (∀ (limit now : Nat) (u : String) (orc : Article → DriveOracle)
      (a : Article) (rest : List Article) (acc : DriveAcc),
      is_processed acc.state a.id = false → limit ≤ acc.processedCount →
      drive limit now u orc (a :: rest) acc = { acc with brokeEarly := true }) ∧
    ∀ (limit : Nat) (ignoreState : Bool) (now : Nat) (u : String)
      (fetched : List Article) (poll : PendingNotebook → PendOutcome)
      (c : String → Bool) (dOrc : Article → DriveOracle)
      (s0 : State) (eps0 : List Episode),
      (run_pipeline limit ignoreState now u fetched poll c dOrc s0 eps0).brokeEarly = true →
      (run_pipeline limit ignoreState now u fetched poll c dOrc s0 eps0).state.last_run =
        s0.last_run := by
  constructor
  · intro limit now u orc a rest acc hproc hlim
    have h1 : ¬ (is_processed acc.state a.id = true) := by simp [hproc]
    rw [drive, if_neg h1, if_pos hlim]
  · intro limit ignoreState now u fetched poll c dOrc s0 eps0 hbe
    rcases run_pipeline_watermark_cases limit ignoreState now u fetched poll c dOrc s0 eps0
      with h | ⟨_, h2, _⟩
    · exact h
    · rw [hbe] at h2
      cases h2

/-- Witness for C6: with limit 0 the driver breaks immediately on the
first unprocessed article, submitting nothing, and the run leaves the
watermark untouched. -/
theorem claim_C6_witness :
    (is_processed (⟨some 5, [], []⟩ : State) "a1" = false ∧
     (0 : Nat) ≤ 0 ∧
     drive 0 9 "u" (fun _ => ⟨StartResult.ok "nb" "t", DownloadResult.stillGenerating, true⟩)
        [⟨"a1", "T", "A", some "https://x/1", "S", none, 1⟩]
        ⟨⟨some 5, [], []⟩, [], 0, false, []⟩ =
      { (⟨⟨some 5, [], []⟩, [], 0, false, []⟩ : DriveAcc) with brokeEarly := true }) ∧
    ((run_pipeline 0 false 9 "u" [⟨"a1", "T", "A", some "https://x/1", "S", none, 1⟩]
        (fun _ => PendOutcome.notReady) (fun _ => true)
        (fun _ => ⟨StartResult.ok "nb" "t", DownloadResult.stillGenerating, true⟩)
        ⟨some 5, [], []⟩ []).brokeEarly = true ∧
     (run_pipeline 0 false 9 "u" [⟨"a1", "T", "A", some "https://x/1", "S", none, 1⟩]
        (fun _ => PendOutcome.notReady) (fun _ => true)
        (fun _ => ⟨StartResult.ok "nb" "t", DownloadResult.stillGenerating, true⟩)
        ⟨some 5, [], []⟩ []).state.last_run = (⟨some 5, [], []⟩ : State).last_run) :=
  ⟨⟨by decide, by decide,
    claim_C6.1 0 9 "u" (fun _ => ⟨StartResult.ok "nb" "t", DownloadResult.stillGenerating, true⟩)
      ⟨"a1", "T", "A", some "https://x/1", "S", none, 1⟩ []
      ⟨⟨some 5, [], []⟩, [], 0, false, []⟩ (by decide) (by decide)⟩,
   ⟨by decide,
    claim_C6.2 0 false 9 "u" [⟨"a1", "T", "A", some "https://x/1", "S", none, 1⟩]
      (fun _ => PendOutcome.notReady) (fun _ => true)
      (fun _ => ⟨StartResult.ok "nb" "t", DownloadResult.stillGenerating, true⟩)
      ⟨some 5, [], []⟩ [] (by decide)⟩⟩

/-- C7 counterexample: with a mixed pending set — one stale job and
one job whose artifact is ready and large — the stale job's notebook
deletion is attempted, but the ready job's Episode construction raises
TypeError (the mp3_url bug) and the run aborts before main.py lines
200-201 ever run: the stale job's record is never dropped from
pending_notebooks, neither in memory nor on disk (no save event at
all), refuting the per-job claim as stated. -/
theorem claim_C7_counterexample :
    (run_pipeline 5 false 4000 "https://pub-x.r2.dev" []
        (fun q => if q.notebook_id == "nb2" then PendOutcome.ready 200000
                  else PendOutcome.notReady)
        (fun _ => true)
        (fun _ => ⟨StartResult.ok "nb" "t", DownloadResult.stillGenerating, true⟩)
        ⟨some 50, [], [⟨"a1", "nb1", "t1", "T1", "Au1", "S1", "https://x/1", 0⟩,
                       ⟨"a2", "nb2", "t2", "T2", "Au2", "S2", "https://x/2", 3000⟩]⟩
        []).crashed = some "unexpected keyword argument: mp3_url" ∧
    NOTEBOOK_MAX_AGE <
      4000 - (⟨"a1", "nb1", "t1", "T1", "Au1", "S1", "https://x/1", 0⟩ :
        PendingNotebook).started_at ∧
    (run_pipeline 5 false 4000 "https://pub-x.r2.dev" []
        (fun q => if q.notebook_id == "nb2" then PendOutcome.ready 200000
                  else PendOutcome.notReady)
        (fun _ => true)
        (fun _ => ⟨StartResult.ok "nb" "t", DownloadResult.stillGenerating, true⟩)
        ⟨some 50, [], [⟨"a1", "nb1", "t1", "T1", "Au1", "S1", "https://x/1", 0⟩,
                       ⟨"a2", "nb2", "t2", "T2", "Au2", "S2", "https://x/2", 3000⟩]⟩
        []).trace =
      [Event.cleanup "nb1" true, Event.awaitDownload "nb2" "t2" false,
       Event.upload "episodes/a2.mp3", Event.cleanup "nb2" true] ∧
    (⟨"a1", "nb1", "t1", "T1", "Au1", "S1", "https://x/1", 0⟩ : PendingNotebook) ∈
      (run_pipeline 5 false 4000 "https://pub-x.r2.dev" []
        (fun q => if q.notebook_id == "nb2" then PendOutcome.ready 200000
                  else PendOutcome.notReady)
        (fun _ => true)
        (fun _ => ⟨StartResult.ok "nb" "t", DownloadResult.stillGenerating, true⟩)
        ⟨some 50, [], [⟨"a1", "nb1", "t1", "T1", "Au1", "S1", "https://x/1", 0⟩,
                       ⟨"a2", "nb2", "t2", "T2", "Au2", "S2", "https://x/2", 3000⟩]⟩
        []).state.pending_notebooks ∧
    (run_pipeline 5 false 4000 "https://pub-x.r2.dev" []
        (fun q => if q.notebook_id == "nb2" then PendOutcome.ready 200000
                  else PendOutcome.notReady)
        (fun _ => true)
        (fun _ => ⟨StartResult.ok "nb" "t", DownloadResult.stillGenerating, true⟩)
        ⟨some 50, [], [⟨"a1", "nb1", "t1", "T1", "Au1", "S1", "https://x/1", 0⟩,
                       ⟨"a2", "nb2", "t2", "T2", "Au2", "S2", "https://x/2", 3000⟩]⟩
        []).trace.filter Event.isSave = [] := by
  refine ⟨rfl, by decide, rfl, by decide, rfl⟩

/-- C7 (amended): provided the reconciliation pass completes without an
escaping exception (which the Episode-construction TypeError prevents
whenever some other job's artifact is ready and large enough), every
pending job that is stale or whose poll raises is abandoned: a
best-effort deletion of its notebook is attempted, its record is
absent from the surviving pending list, the state without it is
persisted (save_state event), no episode is created, no article is
marked processed, and the outcome never depends on whether the cleanup
deletions succeed. -/
theorem claim_C7 (u : String) (now : Nat) (poll : PendingNotebook → PendOutcome)
    (c : String → Bool) (s : State) (eps : List Episode) (p : PendingNotebook)
    (hp : p ∈ s.pending_notebooks)
    (hpse : NOTEBOOK_MAX_AGE < now - p.started_at ∨ poll p = PendOutcome.pollReject)
    (hnc : (process_pending u now poll c s eps).crashed = none) :
    Event.cleanup p.notebook_id (c p.notebook_id) ∈
      (process_pending u now poll c s eps).trace ∧
    p ∉ (process_pending u now poll c s eps).stillPending ∧
    Event.saveState ⟨s.last_run, (process_pending u now poll c s eps).processed,
      (process_pending u now poll c s eps).stillPending⟩ ∈
      (process_pending u now poll c s eps).trace ∧
    (process_pending u now poll c s eps).episodes = eps ∧
    (process_pending u now poll c s eps).processed = s.processed_articles ∧
    ∀ c2 : String → Bool,
      (process_pending u now poll c2 s eps).core = (process_pending u now poll c s eps).core := by
  have hframe := process_pending_frame u now poll c s eps
  have hind : ∀ c2 : String → Bool,
      (process_pending u now poll c2 s eps).core = (process_pending u now poll c s eps).core := by
    intro c2
    obtain ⟨i1, i2, i3, i4, i5⟩ := pend_go_cleanup_indep u now poll c2 c
      s.pending_notebooks ⟨[], [], s.processed_articles, eps, 0, none⟩
      ⟨[], [], s.processed_articles, eps, 0, none⟩ rfl rfl rfl rfl rfl
    simp only [process_pending]
    split
    · rfl
    · cases hc : (process_pending_go u now poll c s.pending_notebooks
          ⟨[], [], s.processed_articles, eps, 0, none⟩).crashed with
      | none =>
        rw [i5.trans hc]
        simp [PendResult.core, i1, i2, i3, i4, i5.trans hc, hc]
      | some msg =>
        rw [i5.trans hc]
        simp [PendResult.core, i1, i2, i3, i4, i5.trans hc, hc]
  have hne : ¬ (s.pending_notebooks.isEmpty = true) := by
    intro h
    rw [List.isEmpty_iff.mp h] at hp
    cases hp
  have hgonone : (process_pending_go u now poll c s.pending_notebooks
      ⟨[], [], s.processed_articles, eps, 0, none⟩).crashed = none := by
    revert hnc
    simp only [process_pending, if_neg hne]
    cases hc : (process_pending_go u now poll c s.pending_notebooks
        ⟨[], [], s.processed_articles, eps, 0, none⟩).crashed with
    | none => intro _; rfl
    | some msg =>
      intro hnc2
      rw [hc] at hnc2
      simp at hnc2
  refine ⟨?_, ?_, ?_, hframe.2.1, hframe.1, hind⟩
  · simp only [process_pending, if_neg hne]
    rw [hgonone]
    dsimp only
    exact List.mem_append.mpr (Or.inl (pend_go_cleanup_mem u now poll c p hpse
      s.pending_notebooks ⟨[], [], s.processed_articles, eps, 0, none⟩ hgonone hp))
  · simp only [process_pending, if_neg hne]
    rw [hgonone]
    dsimp only
    exact pend_go_notadded u now poll c p hpse s.pending_notebooks
      ⟨[], [], s.processed_articles, eps, 0, none⟩ (by intro h; cases h)
  · simp only [process_pending, if_neg hne]
    rw [hgonone]
    dsimp only
    exact List.mem_append.mpr (Or.inr (List.mem_singleton.mpr rfl))

/-- Witness for C7: a crash-free pass over one stale job and one job
whose poll raises abandons the stale job with a cleanup attempt and a
persisted state that no longer contains it, and flipping cleanup
success does not change the outcome. -/
theorem claim_C7_witness :
    ((⟨"a1", "nb1", "t1", "T1", "Au1", "S1", "https://x/1", 0⟩ : PendingNotebook) ∈
        (⟨some 7, [("z", 1)],
          [⟨"a1", "nb1", "t1", "T1", "Au1", "S1", "https://x/1", 0⟩,
           ⟨"a2", "nb2", "t2", "T2", "Au2", "S2", "https://x/2", 3000⟩]⟩ :
          State).pending_notebooks ∧
      (NOTEBOOK_MAX_AGE <
          4000 - (⟨"a1", "nb1", "t1", "T1", "Au1", "S1", "https://x/1", 0⟩ :
            PendingNotebook).started_at ∨
        (fun q : PendingNotebook => if q.notebook_id == "nb2" then PendOutcome.pollReject
          else PendOutcome.notReady) ⟨"a1", "nb1", "t1", "T1", "Au1", "S1", "https://x/1", 0⟩
          = PendOutcome.pollReject) ∧
      (process_pending "u" 4000
        (fun q => if q.notebook_id == "nb2" then PendOutcome.pollReject else PendOutcome.notReady)
        (fun _ => true)
        ⟨some 7, [("z", 1)],
          [⟨"a1", "nb1", "t1", "T1", "Au1", "S1", "https://x/1", 0⟩,
           ⟨"a2", "nb2", "t2", "T2", "Au2", "S2", "https://x/2", 3000⟩]⟩
        []).crashed = none) ∧
    (Event.cleanup "nb1" true ∈
      (process_pending "u" 4000
        (fun q => if q.notebook_id == "nb2" then PendOutcome.pollReject else PendOutcome.notReady)
        (fun _ => true)
        ⟨some 7, [("z", 1)],
          [⟨"a1", "nb1", "t1", "T1", "Au1", "S1", "https://x/1", 0⟩,
           ⟨"a2", "nb2", "t2", "T2", "Au2", "S2", "https://x/2", 3000⟩]⟩
        []).trace ∧
     (⟨"a1", "nb1", "t1", "T1", "Au1", "S1", "https://x/1", 0⟩ : PendingNotebook) ∉
      (process_pending "u" 4000
        (fun q => if q.notebook_id == "nb2" then PendOutcome.pollReject else PendOutcome.notReady)
        (fun _ => true)
        ⟨some 7, [("z", 1)],
          [⟨"a1", "nb1", "t1", "T1", "Au1", "S1", "https://x/1", 0⟩,
           ⟨"a2", "nb2", "t2", "T2", "Au2", "S2", "https://x/2", 3000⟩]⟩
        []).stillPending ∧
     (process_pending "u" 4000
        (fun q => if q.notebook_id == "nb2" then PendOutcome.pollReject else PendOutcome.notReady)
        (fun _ => false)
        ⟨some 7, [("z", 1)],
          [⟨"a1", "nb1", "t1", "T1", "Au1", "S1", "https://x/1", 0⟩,
           ⟨"a2", "nb2", "t2", "T2", "Au2", "S2", "https://x/2", 3000⟩]⟩
        []).core =
      (process_pending "u" 4000
        (fun q => if q.notebook_id == "nb2" then PendOutcome.pollReject else PendOutcome.notReady)
        (fun _ => true)
        ⟨some 7, [("z", 1)],
          [⟨"a1", "nb1", "t1", "T1", "Au1", "S1", "https://x/1", 0⟩,
           ⟨"a2", "nb2", "t2", "T2", "Au2", "S2", "https://x/2", 3000⟩]⟩
        []).core) :=
  ⟨⟨by decide, by decide, by decide⟩,
   (claim_C7 "u" 4000
      (fun q => if q.notebook_id == "nb2" then PendOutcome.pollReject else PendOutcome.notReady)
      (fun _ => true)
      ⟨some 7, [("z", 1)],
        [⟨"a1", "nb1", "t1", "T1", "Au1", "S1", "https://x/1", 0⟩,
         ⟨"a2", "nb2", "t2", "T2", "Au2", "S2", "https://x/2", 3000⟩]⟩
      [] ⟨"a1", "nb1", "t1", "T1", "Au1", "S1", "https://x/1", 0⟩
      (by decide) (by decide) (by decide)).1,
   (claim_C7 "u" 4000
      (fun q => if q.notebook_id == "nb2" then PendOutcome.pollReject else PendOutcome.notReady)
      (fun _ => true)
      ⟨some 7, [("z", 1)],
        [⟨"a1", "nb1", "t1", "T1", "Au1", "S1", "https://x/1", 0⟩,
         ⟨"a2", "nb2", "t2", "T2", "Au2", "S2", "https://x/2", 3000⟩]⟩
      [] ⟨"a1", "nb1", "t1", "T1", "Au1", "S1", "https://x/1", 0⟩
      (by decide) (by decide) (by decide)).2.1,
   (claim_C7 "u" 4000
      (fun q => if q.notebook_id == "nb2" then PendOutcome.pollReject else PendOutcome.notReady)
      (fun _ => true)
      ⟨some 7, [("z", 1)],
        [⟨"a1", "nb1", "t1", "T1", "Au1", "S1", "https://x/1", 0⟩,
         ⟨"a2", "nb2", "t2", "T2", "Au2", "S2", "https://x/2", 3000⟩]⟩
      [] ⟨"a1", "nb1", "t1", "T1", "Au1", "S1", "https://x/1", 0⟩
      (by decide) (by decide) (by decide)).2.2.2.2.2 (fun _ => false)⟩

/-- C1 counterexample: the watermark can be updated while pending_jobs
is non-empty.  A --recent run from a fresh state leaves a pending job
with last_run still none; the next normal run takes the first-run
seeding branch, which sets last_run to now and returns — with the job
still pending at the end of the run. -/
theorem claim_C1_counterexample :
    (run_pipeline 5 true 100 "u" [⟨"a1", "T1", "Au1", some "https://x/1", "S1", none, 10⟩]
        (fun _ => PendOutcome.notReady) (fun _ => true)
        (fun _ => ⟨StartResult.ok "nb1" "t1", DownloadResult.stillGenerating, true⟩)
        ⟨none, [], []⟩ []).state =
      ⟨none, [], [⟨"a1", "nb1", "t1", "T1", "Au1", "S1", "https://x/1", 100⟩]⟩ ∧
    (run_pipeline 5 false 200 "u" [] (fun _ => PendOutcome.notReady) (fun _ => true)
        (fun _ => ⟨StartResult.ok "nb1" "t1", DownloadResult.stillGenerating, true⟩)
        ⟨none, [], [⟨"a1", "nb1", "t1", "T1", "Au1", "S1", "https://x/1", 100⟩]⟩
        []).state.last_run = some 200 ∧
    (run_pipeline 5 false 200 "u" [] (fun _ => PendOutcome.notReady) (fun _ => true)
        (fun _ => ⟨StartResult.ok "nb1" "t1", DownloadResult.stillGenerating, true⟩)
        ⟨none, [], [⟨"a1", "nb1", "t1", "T1", "Au1", "S1", "https://x/1", 100⟩]⟩
        []).state.pending_notebooks =
      [⟨"a1", "nb1", "t1", "T1", "Au1", "S1", "https://x/1", 100⟩] := by
  refine ⟨rfl, rfl, rfl⟩

/-- C1 (amended): once the watermark is set (last_run = some t), it is
updated only by a run in which pending_notebooks is empty at the end
and no early exit occurred, and — under a monotone clock (t ≤ now) —
any watermark after the run is at least the old one.  (When last_run
is still none, a normal run seeds it unconditionally, even with jobs
pending; see the counterexample.) -/
theorem claim_C1 (limit : Nat) (ignoreState : Bool) (now : Nat) (u : String)
    (fetched : List Article) (poll : PendingNotebook → PendOutcome) (c : String → Bool)
    (dOrc : Article → DriveOracle) (s0 : State) (eps0 : List Episode) (t : Nat)
    (hlr : s0.last_run = some t) (hmono : t ≤ now) :
    ((run_pipeline limit ignoreState now u fetched poll c dOrc s0 eps0).state.last_run ≠
        some t →
      (run_pipeline limit ignoreState now u fetched poll c dOrc s0 eps0).state.pending_notebooks
          = [] ∧
      (run_pipeline limit ignoreState now u fetched poll c dOrc s0 eps0).brokeEarly = false ∧
      (run_pipeline limit ignoreState now u fetched poll c dOrc s0 eps0).state.last_run =
        some now) ∧
    ∀ v, (run_pipeline limit ignoreState now u fetched poll c dOrc s0 eps0).state.last_run =
        some v → t ≤ v := by
  rcases run_pipeline_watermark_cases limit ignoreState now u fetched poll c dOrc s0 eps0
    with h | ⟨h1, h2, h3⟩
  · rw [h, hlr]
    refine ⟨fun hne => absurd rfl hne, ?_⟩
    intro v hv
    exact le_of_eq (Option.some.inj hv)
  · rcases h3 with h3 | h3
    · refine ⟨fun _ => ⟨h3, h2, h1⟩, ?_⟩
      intro v hv
      rw [h1] at hv
      exact le_of_le_of_eq hmono (Option.some.inj hv)
    · rw [hlr] at h3
      cases h3

/-- Witness for C1 at a concrete run that completes all work: the
watermark moves from 50 to 100 with nothing pending and no early
exit. -/
theorem claim_C1_witness :
    ((⟨some 50, [], []⟩ : State).last_run = some 50 ∧ (50 : Nat) ≤ 100) ∧
    (((run_pipeline 5 false 100 "u" [] (fun _ => PendOutcome.notReady) (fun _ => true)
        (fun _ => ⟨StartResult.ok "nb" "t", DownloadResult.stillGenerating, true⟩)
        ⟨some 50, [], []⟩ []).state.last_run ≠ some 50 →
      (run_pipeline 5 false 100 "u" [] (fun _ => PendOutcome.notReady) (fun _ => true)
        (fun _ => ⟨StartResult.ok "nb" "t", DownloadResult.stillGenerating, true⟩)
        ⟨some 50, [], []⟩ []).state.pending_notebooks = [] ∧
      (run_pipeline 5 false 100 "u" [] (fun _ => PendOutcome.notReady) (fun _ => true)
        (fun _ => ⟨StartResult.ok "nb" "t", DownloadResult.stillGenerating, true⟩)
        ⟨some 50, [], []⟩ []).brokeEarly = false ∧
      (run_pipeline 5 false 100 "u" [] (fun _ => PendOutcome.notReady) (fun _ => true)
        (fun _ => ⟨StartResult.ok "nb" "t", DownloadResult.stillGenerating, true⟩)
        ⟨some 50, [], []⟩ []).state.last_run = some 100) ∧
     ∀ v, (run_pipeline 5 false 100 "u" [] (fun _ => PendOutcome.notReady) (fun _ => true)
        (fun _ => ⟨StartResult.ok "nb" "t", DownloadResult.stillGenerating, true⟩)
        ⟨some 50, [], []⟩ []).state.last_run = some v → 50 ≤ v) :=
  ⟨⟨rfl, by decide⟩,
   claim_C1 5 false 100 "u" [] (fun _ => PendOutcome.notReady) (fun _ => true)
     (fun _ => ⟨StartResult.ok "nb" "t", DownloadResult.stillGenerating, true⟩)
     ⟨some 50, [], []⟩ [] 50 rfl (by decide)⟩

/-- A member of the driver's article list was fetched and has a truthy
source_url: the filter (and, in --recent mode, sort and take) only
narrows the fetched list. -/
theorem eligible_mem (limit : Nat) (ignoreState : Bool) (fetched : List Article)
    (b : Article) (hb : b ∈ eligible_articles limit ignoreState fetched) :
    b ∈ fetched ∧ pythonTruthy b.source_url = true := by
  simp only [eligible_articles] at hb
  have hfil : b ∈ fetched.filter (fun a => pythonTruthy a.source_url) →
      b ∈ fetched ∧ pythonTruthy b.source_url = true := fun h => List.mem_filter.mp h
  split at hb
  · exact hfil (mem_sortByUpdatedDesc _ _ (List.take_subset _ _ hb))
  · exact hfil hb

/-- C10: a fetched article with a falsy (None or empty) source_url is
filtered out before processing: the run emits no submission for its
id, leaves no pending job with its id, never marks it processed, and
adds no episode at all — so the article is silently excluded again on
every later run rather than retried or reported. -/
theorem claim_C10 (limit : Nat) (ignoreState : Bool) (now : Nat) (u : String)
    (fetched : List Article) (poll : PendingNotebook → PendOutcome) (c : String → Bool)
    (dOrc : Article → DriveOracle) (s0 : State) (eps0 : List Episode) (a : Article)
    (ha : a ∈ fetched)
    (hdup : ∀ b ∈ fetched, b.id = a.id → pythonTruthy b.source_url = false)
    (hpend0 : ∀ p ∈ s0.pending_notebooks, p.article_id ≠ a.id)
    (hproc0 : is_processed s0 a.id = false) :
    (∀ e ∈ (run_pipeline limit ignoreState now u fetched poll c dOrc s0 eps0).trace,
      e.isSubmitFor a.id = false) ∧
    (∀ p ∈ (run_pipeline limit ignoreState now u fetched poll c dOrc s0 eps0).state.pending_notebooks,
      p.article_id ≠ a.id) ∧
    is_processed (run_pipeline limit ignoreState now u fetched poll c dOrc s0 eps0).state a.id
        = false ∧
    (run_pipeline limit ignoreState now u fetched poll c dOrc s0 eps0).episodes = eps0 := by
  have haid : a.id ∉ (eligible_articles limit ignoreState fetched).map (fun b => b.id) := by
    intro hmem
    rcases List.mem_map.mp hmem with ⟨b, hb, hbid⟩
    obtain ⟨hbf, hbt⟩ := eligible_mem limit ignoreState fetched b hb
    rw [hdup b hbf hbid] at hbt
    cases hbt
  by_cases hseed : (s0.last_run.isNone && !ignoreState) = true
  · rw [run_pipeline, if_pos hseed]
    refine ⟨?_, ?_, hproc0, rfl⟩
    · intro e he
      rcases List.mem_singleton.mp he with rfl
      rfl
    · intro p hp
      exact hpend0 p hp
  · rw [run_pipeline, if_neg hseed]
    simp only [after_pending]
    obtain ⟨f1, f2, f3⟩ := process_pending_frame u now poll c s0 eps0
    have fns := process_pending_no_submit u now poll c s0 eps0 a.id
    split
    · refine ⟨fns, ?_, ?_, f2⟩
      · intro p hp
        exact hpend0 p hp
      · show dictContains (process_pending u now poll c s0 eps0).processed a.id = false
        rw [f1]
        exact hproc0
    · split
      · dsimp only
        refine ⟨?_, ?_, ?_, f2⟩
        · intro e he
          rcases List.mem_append.mp he with h1 | h1
          · rcases List.mem_append.mp h1 with h2 | h2
            · exact fns e h2
            · split at h2
              · rcases List.mem_singleton.mp h2 with rfl
                rfl
              · cases h2
          · rcases List.mem_singleton.mp h1 with rfl
            rfl
        · intro p hp
          revert hp
          split <;> (intro hp; exact hpend0 p (f3 p hp))
        · split
          · show dictContains (process_pending u now poll c s0 eps0).processed a.id = false
            rw [f1]
            exact hproc0
          · show dictContains (process_pending u now poll c s0 eps0).processed a.id = false
            rw [f1]
            exact hproc0
      · have hacc0 : ∀ q ∈ (⟨⟨s0.last_run, (process_pending u now poll c s0 eps0).processed,
            (process_pending u now poll c s0 eps0).stillPending⟩,
            (process_pending u now poll c s0 eps0).episodes, 0, false,
            (process_pending u now poll c s0 eps0).trace⟩ : DriveAcc).state.pending_notebooks,
            q.article_id ≠ a.id := by
          intro q hq
          exact hpend0 q (f3 q hq)
        have hds := drive_no_submit limit now u dOrc a.id
          (eligible_articles limit ignoreState fetched)
          ⟨⟨s0.last_run, (process_pending u now poll c s0 eps0).processed,
            (process_pending u now poll c s0 eps0).stillPending⟩,
            (process_pending u now poll c s0 eps0).episodes, 0, false,
            (process_pending u now poll c s0 eps0).trace⟩ haid
        have hdp := drive_pending_aid limit now u dOrc a.id
          (eligible_articles limit ignoreState fetched)
          ⟨⟨s0.last_run, (process_pending u now poll c s0 eps0).processed,
            (process_pending u now poll c s0 eps0).stillPending⟩,
            (process_pending u now poll c s0 eps0).episodes, 0, false,
            (process_pending u now poll c s0 eps0).trace⟩ haid hacc0
        have hdf := drive_frame limit now u dOrc
          (eligible_articles limit ignoreState fetched)
          ⟨⟨s0.last_run, (process_pending u now poll c s0 eps0).processed,
            (process_pending u now poll c s0 eps0).stillPending⟩,
            (process_pending u now poll c s0 eps0).episodes, 0, false,
            (process_pending u now poll c s0 eps0).trace⟩
        have hproc1 : dictContains (drive limit now u dOrc
            (eligible_articles limit ignoreState fetched)
            ⟨⟨s0.last_run, (process_pending u now poll c s0 eps0).processed,
              (process_pending u now poll c s0 eps0).stillPending⟩,
              (process_pending u now poll c s0 eps0).episodes, 0, false,
              (process_pending u now poll c s0 eps0).trace⟩).state.processed_articles a.id
            = false := by
          rw [hdf.2.1]
          show dictContains (process_pending u now poll c s0 eps0).processed a.id = false
          rw [f1]
          exact hproc0
        have heps1 : (drive limit now u dOrc
            (eligible_articles limit ignoreState fetched)
            ⟨⟨s0.last_run, (process_pending u now poll c s0 eps0).processed,
              (process_pending u now poll c s0 eps0).stillPending⟩,
              (process_pending u now poll c s0 eps0).episodes, 0, false,
              (process_pending u now poll c s0 eps0).trace⟩).episodes = eps0 := by
          rw [hdf.2.2.1]
          exact f2
        have htr : ∀ e ∈ (drive limit now u dOrc
            (eligible_articles limit ignoreState fetched)
            ⟨⟨s0.last_run, (process_pending u now poll c s0 eps0).processed,
              (process_pending u now poll c s0 eps0).stillPending⟩,
              (process_pending u now poll c s0 eps0).episodes, 0, false,
              (process_pending u now poll c s0 eps0).trace⟩).trace,
            e.isSubmitFor a.id = false := by
          intro e he
          rcases hds e he with h | h
          · exact fns e h
          · exact h
        split
        · refine ⟨?_, hdp, hproc1, heps1⟩
          intro e he
          rcases List.mem_append.mp he with h1 | h1
          · rcases List.mem_append.mp h1 with h2 | h2
            · exact htr e h2
            · split at h2
              · rcases List.mem_singleton.mp h2 with rfl
                rfl
              · cases h2
          · rcases List.mem_singleton.mp h1 with rfl
            rfl
        · refine ⟨?_, hdp, hproc1, heps1⟩
          intro e he
          rcases List.mem_append.mp he with h1 | h1
          · exact htr e h1
          · split at h1
            · rcases List.mem_singleton.mp h1 with rfl
              rfl
            · cases h1

/-- Witness for C10: an article with an empty source_url is dropped by
the run while a healthy article proceeds. -/
theorem claim_C10_witness :
    ((⟨"a0", "T0", "Au0", some "", "S0", none, 5⟩ : Article) ∈
        [⟨"a0", "T0", "Au0", some "", "S0", none, 5⟩,
         ⟨"a1", "T1", "Au1", some "https://x/1", "S1", none, 10⟩] ∧
      is_processed (⟨some 50, [], []⟩ : State) "a0" = false) ∧
    ((∀ e ∈ (run_pipeline 5 false 100 "u"
        [⟨"a0", "T0", "Au0", some "", "S0", none, 5⟩,
         ⟨"a1", "T1", "Au1", some "https://x/1", "S1", none, 10⟩]
        (fun _ => PendOutcome.notReady) (fun _ => true)
        (fun _ => ⟨StartResult.ok "nb1" "t1", DownloadResult.stillGenerating, true⟩)
        ⟨some 50, [], []⟩ []).trace,
      e.isSubmitFor "a0" = false) ∧
     (∀ p ∈ (run_pipeline 5 false 100 "u"
        [⟨"a0", "T0", "Au0", some "", "S0", none, 5⟩,
         ⟨"a1", "T1", "Au1", some "https://x/1", "S1", none, 10⟩]
        (fun _ => PendOutcome.notReady) (fun _ => true)
        (fun _ => ⟨StartResult.ok "nb1" "t1", DownloadResult.stillGenerating, true⟩)
        ⟨some 50, [], []⟩ []).state.pending_notebooks,
      p.article_id ≠ "a0") ∧
     is_processed (run_pipeline 5 false 100 "u"
        [⟨"a0", "T0", "Au0", some "", "S0", none, 5⟩,
         ⟨"a1", "T1", "Au1", some "https://x/1", "S1", none, 10⟩]
        (fun _ => PendOutcome.notReady) (fun _ => true)
        (fun _ => ⟨StartResult.ok "nb1" "t1", DownloadResult.stillGenerating, true⟩)
        ⟨some 50, [], []⟩ []).state "a0" = false ∧
     (run_pipeline 5 false 100 "u"
        [⟨"a0", "T0", "Au0", some "", "S0", none, 5⟩,
         ⟨"a1", "T1", "Au1", some "https://x/1", "S1", none, 10⟩]
        (fun _ => PendOutcome.notReady) (fun _ => true)
        (fun _ => ⟨StartResult.ok "nb1" "t1", DownloadResult.stillGenerating, true⟩)
        ⟨some 50, [], []⟩ []).episodes = []) :=
  ⟨⟨by decide, by decide⟩,
   claim_C10 5 false 100 "u"
     [⟨"a0", "T0", "Au0", some "", "S0", none, 5⟩,
      ⟨"a1", "T1", "Au1", some "https://x/1", "S1", none, 10⟩]
     (fun _ => PendOutcome.notReady) (fun _ => true)
     (fun _ => ⟨StartResult.ok "nb1" "t1", DownloadResult.stillGenerating, true⟩)
     ⟨some 50, [], []⟩ [] ⟨"a0", "T0", "Au0", some "", "S0", none, 5⟩
     (by decide) (by decide) (by decide) (by decide)⟩

end RW
